import Mathlib

/-!
Shallow embedding of the schema-driven SQLite storage layer in
`src/helpers/database.ts` (class `Database`, its generated `BaseModel`
classes, migration primitives and the backup/vacuum maintenance guard).

Conventions of the embedding:
* JavaScript values flowing through columns are modelled by `Value`
  (`vNull` stands for both SQL NULL and JS `undefined`).
* The sqlite3 engine is modelled by `Engine`: an association list of
  physical tables, a failure oracle (`failSet` holds the indices of the
  engine calls whose callback receives an error), a call counter, and a
  trace of the successfully executed mutating statements.
* Every `db.run` / `db.get` / `db.all` in the source becomes one `tick`
  of the engine; statements that are semantically invalid (unknown table
  or column, arity mismatch) produce an engine error exactly as sqlite
  would report one through the callback.
* String comparison operators other than the default `'='` and the
  wildcard `'*'` (which the source special-cases in `getRows`) are not
  modelled; no claim exercises them.
* `throw new Error(...)` for a missing primary key becomes
  `Except.error DbError.configError`.
-/

/-- A column value: SQL NULL / JS undefined, TEXT, or INTEGER. -/
inductive Value where
  | vNull : Value
  | vText : String → Value
  | vInt : Int → Value
deriving DecidableEq, Repr

/-- `SQLType` from the source: `'TEXT' | 'INTEGER'`. -/
inductive SQLType where
  | text : SQLType
  | integer : SQLType
deriving DecidableEq, Repr

/-- `TableColumn` from the source (declaration of one schema column). -/
structure TableColumn where
  old : Option String := none
  name : String
  type : SQLType
  pkey : Bool := false
  sensitive : Bool := false
  default_value : Option Value := none
deriving DecidableEq, Repr

/-- One physical column as reported by `PRAGMA table_info` (name, type). -/
structure PhysColumn where
  name : String
  type : SQLType
deriving DecidableEq, Repr

/-- A stored row: association list from column name to value. -/
abbrev Row := List (String × Value)

/-- A physical table: its column layout and its rows. -/
structure PhysTable where
  cols : List PhysColumn
  rows : List Row
deriving DecidableEq, Repr

/-- Mutating statements the engine actually executed (DDL and writes). -/
inductive Op where
  | createTable (t : String)
  | dropTable (t : String)
  | renameTable (a b : String)
  | addColumn (t c : String)
  | dropColumn (t c : String)
  | renameColumn (t a b : String)
  | insertSelect (src dst : String)
  | insert (t : String)
  | update (t c : String)
  | delete (t : String)
deriving DecidableEq, Repr

/-- The embedded sqlite3 engine state. -/
structure Engine where
  storage : List (String × PhysTable)
  failSet : List Nat
  calls : Nat
  trace : List Op
deriving DecidableEq, Repr

/-- One engine call: consult the failure oracle and advance the counter. -/
def tick (e : Engine) : Bool × Engine :=
  (e.failSet.contains e.calls, { e with calls := e.calls + 1 })

/-- The result envelope `{ code, status?, changes? }` of the source. -/
structure ApiResponse where
  code : Int
  status : Option Bool := none
  changes : Option Nat := none
deriving DecidableEq, Repr

/-- Result envelope of row-set returning reads (`getRows`). -/
structure RowsResponse where
  code : Int
  rows : Option (List Row)
deriving DecidableEq, Repr

/-- Result envelope of single-row reads (`getRow`). -/
structure RowResponse where
  code : Int
  row : Option Row
deriving DecidableEq, Repr

/-- Result envelope of `getTables` (list of table names). -/
structure TablesResponse where
  code : Int
  status : Bool
  rows : List String
deriving DecidableEq, Repr

/-- Reading a JS row property: a missing key is `undefined`/NULL. -/
def rowGet (r : Row) (f : String) : Value :=
  (r.lookup f).getD .vNull

/-- Setting a row field: replace an existing key, else append it. -/
def setAssoc (r : Row) (f : String) (v : Value) : Row :=
  if (r.lookup f).isSome then
    r.map (fun kv => if kv.1 = f then (kv.1, v) else kv)
  else r ++ [(f, v)]

/-- SQL `=` comparison: NULL compares false against everything. -/
def sqlEq (a b : Value) : Bool :=
  match a, b with
  | .vNull, _ => false
  | _, .vNull => false
  | a, b => a == b

/-- Apply a transformation to the named table inside the storage map. -/
def mapTable (storage : List (String × PhysTable)) (t : String)
    (f : PhysTable → PhysTable) : List (String × PhysTable) :=
  storage.map (fun p => if p.1 = t then (p.1, f p.2) else p)

/-- `LIMIT` clause: `some n` keeps the first `n` rows, `none` keeps all. -/
def takeLimit (limit : Option Nat) (rows : List Row) : List Row :=
  match limit with
  | some n => rows.take n
  | none => rows

/-- `Database.valueExists`: `SELECT f FROM t WHERE f=? LIMIT 1`. -/
def valueExists (t f : String) (v : Value) (e : Engine) : ApiResponse × Engine :=
  let (fail, e1) := tick e
  if fail then ({ code := 500, status := some false }, e1) else
  match e1.storage.lookup t with
  | none => ({ code := 500, status := some false }, e1)
  | some pt =>
    if pt.cols.any (fun c => c.name == f) then
      ({ code := 200, status := some (pt.rows.any (fun r => sqlEq (rowGet r f) v)) }, e1)
    else ({ code := 500, status := some false }, e1)

/-- `Database.addValues`: positional `INSERT INTO t VALUES (?,...,?)`. -/
def addValues (t : String) (args : List Value) (e : Engine) : ApiResponse × Engine :=
  let (fail, e1) := tick e
  if fail then ({ code := 500 }, e1) else
  match e1.storage.lookup t with
  | none => ({ code := 500 }, e1)
  | some pt =>
    if args.length = pt.cols.length then
      let row := (pt.cols.map (fun c => c.name)).zip args
      ({ code := 200, status := some true, changes := some 1 },
       { e1 with
          storage := mapTable e1.storage t (fun pt => { pt with rows := pt.rows ++ [row] }),
          trace := e1.trace ++ [.insert t] })
    else ({ code := 500 }, e1)

/-- `Database.setValue`: `UPDATE t SET f=? WHERE sf=?`, reporting the
sqlite `changes` count (rows matched by the predicate). -/
def dbSetValue (t f : String) (v : Value) (sf : String) (sv : Value)
    (e : Engine) : ApiResponse × Engine :=
  let (fail, e1) := tick e
  if fail then ({ code := 500, status := some false, changes := some 0 }, e1) else
  match e1.storage.lookup t with
  | none => ({ code := 500, status := some false, changes := some 0 }, e1)
  | some pt =>
    if pt.cols.any (fun c => c.name == f) && pt.cols.any (fun c => c.name == sf) then
      let n := (pt.rows.filter (fun r => sqlEq (rowGet r sf) sv)).length
      let rows := pt.rows.map (fun r => if sqlEq (rowGet r sf) sv then setAssoc r f v else r)
      ({ code := 200, status := some (decide (0 < n)), changes := some n },
       { e1 with
          storage := mapTable e1.storage t (fun pt => { pt with rows := rows }),
          trace := e1.trace ++ [.update t f] })
    else ({ code := 500, status := some false, changes := some 0 }, e1)

/-- `Database.getRows`: `SELECT * FROM t [WHERE f=?] [LIMIT n]`; the
wildcard operator `'*'` drops the WHERE clause. -/
def getRows (t f : String) (v : Value) (equality : Option String)
    (limit : Option Nat) (e : Engine) : RowsResponse × Engine :=
  let (fail, e1) := tick e
  if fail then ({ code := 500, rows := none }, e1) else
  match e1.storage.lookup t with
  | none => ({ code := 500, rows := none }, e1)
  | some pt =>
    if equality = some "*" then
      ({ code := 200, rows := some (takeLimit limit pt.rows) }, e1)
    else if (equality.getD "=") = "=" then
      if pt.cols.any (fun c => c.name == f) then
        ({ code := 200,
           rows := some (takeLimit limit (pt.rows.filter (fun r => sqlEq (rowGet r f) v))) }, e1)
      else ({ code := 500, rows := none }, e1)
    else ({ code := 500, rows := none }, e1)

/-- `Database.getRow`: `getRows` with limit 1, unwrapping the first row. -/
def getRow (t f : String) (v : Value) (equality : Option String)
    (e : Engine) : RowResponse × Engine :=
  let (r, e1) := getRows t f v equality (some 1) e
  ({ code := r.code, row := (r.rows.getD []).head? }, e1)

/-- Delete the first `lim` rows matching `p`, returning survivors and the
number deleted (`DELETE ... WHERE rowid IN (SELECT ... LIMIT lim)`). -/
def removeFirstMatching (p : Row → Bool) : List Row → Option Nat → List Row × Nat
  | [], _ => ([], 0)
  | r :: rs, lim =>
    if lim = some 0 then (r :: rs, 0)
    else if p r then
      let next := match lim with | some n => some (n - 1) | none => none
      let (rs2, k) := removeFirstMatching p rs next
      (rs2, k + 1)
    else
      let (rs2, k) := removeFirstMatching p rs lim
      (r :: rs2, k)

/-- `Database.deleteRows`. -/
def deleteRows (t f : String) (v : Value) (limit : Option Nat)
    (e : Engine) : ApiResponse × Engine :=
  let (fail, e1) := tick e
  if fail then ({ code := 500, status := some false, changes := some 0 }, e1) else
  match e1.storage.lookup t with
  | none => ({ code := 500, status := some false, changes := some 0 }, e1)
  | some pt =>
    if pt.cols.any (fun c => c.name == f) then
      let (rows, n) := removeFirstMatching (fun r => sqlEq (rowGet r f) v) pt.rows limit
      ({ code := 200, status := some (decide (0 < n)), changes := some n },
       { e1 with
          storage := mapTable e1.storage t (fun pt => { pt with rows := rows }),
          trace := e1.trace ++ [.delete t] })
    else ({ code := 500, status := some false, changes := some 0 }, e1)

/-- `Database.deleteRow`: `deleteRows` with limit 1. -/
def deleteRow (t f : String) (v : Value) (e : Engine) : ApiResponse × Engine :=
  deleteRows t f v (some 1) e

/-- The insert phase of `Database.moveRows`:
`INSERT INTO toT SELECT * FROM fromT WHERE f=? [LIMIT n]`. -/
def moveRowsInsert (fromT toT f : String) (v : Value) (limit : Option Nat)
    (e : Engine) : ApiResponse × Engine :=
  let (fail, e1) := tick e
  if fail then ({ code := 500, status := some false, changes := some 0 }, e1) else
  match e1.storage.lookup fromT, e1.storage.lookup toT with
  | some fpt, some tpt =>
    if fpt.cols.any (fun c => c.name == f) ∧ fpt.cols.length = tpt.cols.length then
      let moved := takeLimit limit (fpt.rows.filter (fun r => sqlEq (rowGet r f) v))
      let rekeyed := moved.map (fun r =>
        (tpt.cols.map (fun c => c.name)).zip (fpt.cols.map (fun c => rowGet r c.name)))
      ({ code := 200, status := some (decide (0 < moved.length)), changes := some moved.length },
       { e1 with
          storage := mapTable e1.storage toT (fun pt => { pt with rows := pt.rows ++ rekeyed }),
          trace := e1.trace ++ [.insertSelect fromT toT] })
    else ({ code := 500, status := some false, changes := some 0 }, e1)
  | _, _ => ({ code := 500, status := some false, changes := some 0 }, e1)

/-- `Database.moveRows`: the insert phase, then (only if the insert
statement succeeded) `deleteRows` on the source. -/
def moveRows (fromT toT f : String) (v : Value) (limit : Option Nat)
    (e : Engine) : ApiResponse × Engine :=
  let (r, e2) := moveRowsInsert fromT toT f v limit e
  if r.code ≠ 200 then (r, e2)
  else deleteRows fromT f v limit e2

/-- Configuration error: `throw new Error("Cannot ...: No primary key ...")`. -/
inductive DbError where
  | configError
deriving DecidableEq, Repr

/-- `schema.find(col => col.pkey)?.name` — the primary key column, if any. -/
def primaryKeyColumn (schema : List TableColumn) : Option String :=
  (schema.find? (fun c => c.pkey)).map (fun c => c.name)

/-- A model instance: current property values plus the
`_original_<name>` snapshot captured at construction. -/
structure Instance where
  cur : Row
  orig : Row
deriving DecidableEq, Repr

/-- The `BaseModel` constructor: assigns `args[index]` (missing
positional arguments are `undefined`) to both the property and its
`_original_` snapshot, in schema order. -/
def mkInstance (schema : List TableColumn) (args : List Value) : Instance :=
  let cur := schema.enum.map (fun ic => (ic.2.name, args.getD ic.1 .vNull))
  { cur := cur, orig := cur }

/-- Reading an instance property `this[col.name]`. -/
def instGet (i : Instance) (f : String) : Value := rowGet i.cur f

/-- Reading the snapshot property `this[_original_ + col.name]`. -/
def origGet (i : Instance) (f : String) : Value := rowGet i.orig f

/-- `update.forEach(col => this[_original_ + col.name] = this[col.name])`. -/
def refreshOrig (i : Instance) (cols : List TableColumn) : Instance :=
  { i with orig := cols.foldl (fun o c => setAssoc o c.name (instGet i c.name)) i.orig }

/-- `BaseModel.prototype.save`. -/
def modelSave (schema : List TableColumn) (tn : String) (i : Instance)
    (e : Engine) : Except DbError (ApiResponse × Instance × Engine) :=
  match primaryKeyColumn schema with
  | none => .error .configError
  | some pk =>
    let pkValue := instGet i pk
    let update := (schema.filter (fun c => !c.pkey)).filter
      (fun c => instGet i c.name != origGet i c.name)
    let (er, e1) := valueExists tn pk pkValue e
    if er.status ≠ some true then
      let (r, e2) := addValues tn (schema.map (fun c => instGet i c.name)) e1
      .ok (r, (if r.status = some true then refreshOrig i update else i), e2)
    else
      let (results, e2) := update.foldl
        (fun acc c =>
          let (r, e3) := dbSetValue tn c.name (instGet i c.name) pk pkValue acc.2
          (acc.1 ++ [r], e3)) (([] : List ApiResponse), e1)
      let ok := results.all (fun r => r.status == some true)
      let i2 := if ok then refreshOrig i update else i
      .ok ({ code := if ok then 200 else 500, status := some ok,
             changes := some (if ok then 1 else 0) }, i2, e2)

/-- `BaseModel.prototype.toObject`. -/
def toObject (schema : List TableColumn) (sensitive : Bool) (i : Instance) : Row :=
  (schema.filter (fun c => sensitive || !c.sensitive)).map
    (fun c => (c.name, instGet i c.name))

/-- `BaseModel.fromObject`: positional constructor call on
`schema.map(col => obj[col.name])`; a key absent from `obj` yields
`undefined` — the declared `default_value` is never consulted. -/
def fromObject (schema : List TableColumn) (obj : Row) : Instance :=
  mkInstance schema (schema.map (fun c => rowGet obj c.name))

/-- `BaseModel.prototype.delete`. -/
def modelDelete (schema : List TableColumn) (tn : String) (i : Instance)
    (e : Engine) : Except DbError (ApiResponse × Engine) :=
  match primaryKeyColumn schema with
  | none => .error .configError
  | some pk => .ok (deleteRow tn pk (instGet i pk) e)

/-- Static `BaseModel.delete`. -/
def modelStaticDelete (schema : List TableColumn) (tn : String) (pkv : Value)
    (e : Engine) : Except DbError (ApiResponse × Engine) :=
  match primaryKeyColumn schema with
  | none => .error .configError
  | some pk => .ok (deleteRow tn pk pkv e)

/-- Static `BaseModel.find`. -/
def modelFind (schema : List TableColumn) (tn : String) (pkv : Value)
    (e : Engine) : Except DbError (Option Instance × Engine) :=
  match primaryKeyColumn schema with
  | none => .error .configError
  | some pk =>
    let (r, e1) := getRow tn pk pkv none e
    match r.row with
    | some row => .ok (some (fromObject schema row), e1)
    | none => .ok (none, e1)

/-- `BaseModel.prototype.move`. -/
def modelMove (schema : List TableColumn) (tn toTn : String) (i : Instance)
    (e : Engine) : Except DbError (ApiResponse × Engine) :=
  match primaryKeyColumn schema with
  | none => .error .configError
  | some pk => .ok (moveRows tn toTn pk (instGet i pk) none e)

/-- Static `BaseModel.setValue`. -/
def modelStaticSetValue (schema : List TableColumn) (tn f : String) (v : Value)
    (pkv : Value) (e : Engine) : Except DbError (ApiResponse × Engine) :=
  match primaryKeyColumn schema with
  | none => .error .configError
  | some pk => .ok (dbSetValue tn f v pk pkv e)

/-- The per-column helper `Model.columns.<col>.setValue`. -/
def columnSetValue (schema : List TableColumn) (tn colName : String)
    (pkv v : Value) (e : Engine) : Except DbError (ApiResponse × Engine) :=
  match primaryKeyColumn schema with
  | none => .error .configError
  | some pk => .ok (dbSetValue tn colName v pk pkv e)

/-- The per-column helper `Model.columns.<col>.fetch` (no key required). -/
def columnFetch (schema : List TableColumn) (tn colName : String) (v : Value)
    (equality : Option String) (e : Engine) : List Instance × Engine :=
  let (r, e1) := getRows tn colName v equality none e
  ((r.rows.getD []).map (fromObject schema), e1)

/-- The per-column helper `Model.columns.<col>.move` (no key required). -/
def columnMove (schema : List TableColumn) (tn toTn colName : String)
    (v : Value) (limit : Option Nat) (e : Engine) : ApiResponse × Engine :=
  moveRows tn toTn colName v limit e

/-- The per-column helper `Model.columns.<col>.updateValues`:
delegates straight to `Database.setValue` with the WHERE column. -/
def columnUpdateValues (schema : List TableColumn) (tn colName : String)
    (newV : Value) (whereCol : String) (whereV : Value)
    (e : Engine) : ApiResponse × Engine :=
  dbSetValue tn colName newV whereCol whereV e

/-- Static `BaseModel.all`: `getRows(tableName, null, null, "*")`;
the ignored field/value arguments are modelled by `""` and `vNull`. -/
def modelAll (schema : List TableColumn) (tn : String)
    (e : Engine) : List Instance × Engine :=
  let (r, e1) := getRows tn "" .vNull (some "*") none e
  ((r.rows.getD []).map (fromObject schema), e1)

/-- Static `BaseModel.create`: `new this(...args)`. -/
def modelCreate (schema : List TableColumn) (args : List Value) : Instance :=
  mkInstance schema args

/-- `BaseModel.prototype.convert`. -/
def modelConvert (srcSchema : List TableColumn) (srcTn : String)
    (dstSchema : List TableColumn) (dstTn : String) (i : Instance)
    (e : Engine) : Except DbError (Option Instance × Engine) :=
  match primaryKeyColumn srcSchema with
  | none => .error .configError
  | some _ =>
    let data := toObject srcSchema true i
    let newI := fromObject dstSchema data
    match modelSave dstSchema dstTn newI e with
    | .error err => .error err
    | .ok (sr, newI2, e1) =>
      if sr.status ≠ some true then .ok (none, e1)
      else
        match modelDelete srcSchema srcTn i e1 with
        | .error err => .error err
        | .ok (_, e2) => .ok (some newI2, e2)

/-- `Database.tableExists`: `SELECT name FROM sqlite_master WHERE ... name=?`. -/
def tableExists (t : String) (e : Engine) : ApiResponse × Engine :=
  let (fail, e1) := tick e
  if fail then ({ code := 500, status := some false }, e1)
  else ({ code := 200, status := some ((e1.storage.lookup t).isSome) }, e1)

/-- `Database.fieldExists`: `PRAGMA table_info`, then a name scan. -/
def fieldExists (t f : String) (e : Engine) : ApiResponse × Engine :=
  let (fail, e1) := tick e
  if fail then ({ code := 500, status := some false }, e1)
  else
    let info := ((e1.storage.lookup t).map (fun pt => pt.cols)).getD []
    ({ code := 200, status := some (info.any (fun c => c.name == f)) }, e1)

/-- `Database.getTables`: `SELECT name FROM sqlite_master WHERE type='table'`. -/
def getTables (e : Engine) : TablesResponse × Engine :=
  let (fail, e1) := tick e
  if fail then ({ code := 500, status := false, rows := [] }, e1)
  else ({ code := 200, status := true, rows := e1.storage.map (fun p => p.1) }, e1)

/-- `Database.deleteTable`: existence check, then `DROP TABLE`. -/
def deleteTable (t : String) (e : Engine) : ApiResponse × Engine :=
  let (r, e1) := tableExists t e
  if r.code ≠ 200 then ({ code := 500, status := some false }, e1)
  else if r.status ≠ some true then ({ code := 404, status := some false }, e1)
  else
    let (fail, e2) := tick e1
    if fail then ({ code := 500, status := some false }, e2)
    else ({ code := 200, status := some true },
          { e2 with
             storage := e2.storage.filter (fun p => decide (p.1 ≠ t)),
             trace := e2.trace ++ [.dropTable t] })

/-- `Database.renameTable`: two existence checks (404 when the source is
missing, 409 when the target exists — the source computes the second
code from `result1.code`), then `ALTER TABLE ... RENAME TO`. -/
def renameTable (oldT newT : String) (e : Engine) : ApiResponse × Engine :=
  let (r1, e1) := tableExists oldT e
  if r1.status ≠ some true then
    ({ code := if r1.code = 200 then 404 else 500, status := some false }, e1)
  else
    let (r2, e2) := tableExists newT e1
    if r2.code ≠ 200 ∨ r2.status = some true then
      ({ code := if r1.code = 200 then 409 else 500, status := some false }, e2)
    else
      let (fail, e3) := tick e2
      if fail then ({ code := 500, status := some false }, e3)
      else ({ code := 200, status := some true },
            { e3 with
               storage := e3.storage.map (fun p => if p.1 = oldT then (newT, p.2) else p),
               trace := e3.trace ++ [.renameTable oldT newT] })

/-- `Database.renameField`: two column-existence checks (404 / 409 as in
`renameTable`), then `ALTER TABLE ... RENAME COLUMN`. -/
def renameField (t oldF newF : String) (e : Engine) : ApiResponse × Engine :=
  let (r1, e1) := fieldExists t oldF e
  if r1.status ≠ some true then
    ({ code := if r1.code = 200 then 404 else 500, status := some false }, e1)
  else
    let (r2, e2) := fieldExists t newF e1
    if r2.code ≠ 200 ∨ r2.status = some true then
      ({ code := if r1.code = 200 then 409 else 500, status := some false }, e2)
    else
      let (fail, e3) := tick e2
      if fail then ({ code := 500, status := some false }, e3)
      else ({ code := 200, status := some true },
            { e3 with
               storage := mapTable e3.storage t (fun pt =>
                 { cols := pt.cols.map (fun c => if c.name = oldF then { c with name := newF } else c),
                   rows := pt.rows.map (fun r => r.map (fun kv => if kv.1 = oldF then (newF, kv.2) else kv)) }),
               trace := e3.trace ++ [.renameColumn t oldF newF] })

/-- `Database.addField`: `ALTER TABLE ... ADD COLUMN`, then, when a
default value is declared, `UPDATE t SET field=?` over every row. -/
def addField (t f : String) (ty : SQLType) (default_value : Option Value)
    (e : Engine) : ApiResponse × Engine :=
  let (fail, e1) := tick e
  let (r, e2) :=
    if fail then (({ code := 500, status := some false } : ApiResponse), e1)
    else
      match e1.storage.lookup t with
      | none => (({ code := 500, status := some false } : ApiResponse), e1)
      | some pt =>
        if pt.cols.any (fun c => c.name == f) then
          (({ code := 500, status := some false } : ApiResponse), e1)
        else
          (({ code := 200, status := some true } : ApiResponse),
           { e1 with
              storage := mapTable e1.storage t (fun pt => { pt with cols := pt.cols ++ [⟨f, ty⟩] }),
              trace := e1.trace ++ [.addColumn t f] })
  match default_value with
  | none => (r, e2)
  | some dv =>
    if r.code ≠ 200 then (r, e2)
    else
      let (fail2, e3) := tick e2
      if fail2 then ({ code := 500, status := some false }, e3)
      else ({ code := 200, status := some true },
            { e3 with
               storage := mapTable e3.storage t (fun pt =>
                 { pt with rows := pt.rows.map (fun row => setAssoc row f dv) }),
               trace := e3.trace ++ [.update t f] })

/-- `Database.deleteField`: `ALTER TABLE ... DROP COLUMN`. -/
def deleteField (t f : String) (e : Engine) : ApiResponse × Engine :=
  let (fail, e1) := tick e
  if fail then ({ code := 500, status := some false }, e1) else
  match e1.storage.lookup t with
  | none => ({ code := 500, status := some false }, e1)
  | some pt =>
    if pt.cols.any (fun c => c.name == f) then
      ({ code := 200, status := some true },
       { e1 with
          storage := mapTable e1.storage t (fun pt =>
            { cols := pt.cols.filter (fun c => c.name != f),
              rows := pt.rows.map (fun r => r.filter (fun kv => kv.1 != f)) }),
          trace := e1.trace ++ [.dropColumn t f] })
    else ({ code := 500, status := some false }, e1)

/-- `Database.addFields`. The source resolves its promise at the first
failing step (`resolve(result)` with no `return`), but the loop keeps
running; this is modelled by threading the first settled result
(`firstRes`) through every step and still executing them all. Rename
failures settle only on code 500 (the source checks `result.code == 500`),
while add/drop failures settle on any non-200 code. -/
def addFields (t : String) (fields : List TableColumn) (delete_unused : Bool)
    (e : Engine) : ApiResponse × Engine :=
  let renameStep := fields.foldl
    (fun (acc : Option ApiResponse × Engine) f =>
      match f.old with
      | none => acc
      | some o =>
        let (r, e2) := renameField t o f.name acc.2
        (if r.code = 500 ∧ acc.1 = none then some r else acc.1, e2))
    ((none : Option ApiResponse), e)
  let (firstRes, e1) := renameStep
  let (fail, e2) := tick e1
  if fail then (firstRes.getD { code := 500, status := some false }, e2)
  else
    let table_fields := ((e2.storage.lookup t).map (fun pt => pt.cols)).getD []
    let add_names := fields.map (fun f => f.name)
    let db_names := table_fields.map (fun c => c.name)
    let missing := fields.filter (fun f => !db_names.contains f.name)
    let unused := db_names.filter (fun n => !add_names.contains n)
    let addStep := missing.foldl
      (fun (acc : Option ApiResponse × Engine) f =>
        let (r, e4) := addField t f.name f.type f.default_value acc.2
        (if r.code ≠ 200 ∧ acc.1 = none then some r else acc.1, e4))
      (firstRes, e2)
    let (firstRes2, e3) := addStep
    let dropStep :=
      if delete_unused then
        unused.foldl
          (fun (acc : Option ApiResponse × Engine) n =>
            let (r, e6) := deleteField t n acc.2
            (if r.code ≠ 200 ∧ acc.1 = none then some r else acc.1, e6))
          (firstRes2, e3)
      else (firstRes2, e3)
    let (firstRes3, e5) := dropStep
    (firstRes3.getD { code := 200, status := some true }, e5)

/-- `Database.createTable`: reconcile via `addFields` when the table
already exists, otherwise run `CREATE TABLE` with the declared columns. -/
def createTable (t : String) (fields : List TableColumn) (delete_unused : Bool)
    (e : Engine) : ApiResponse × Engine :=
  let (r, e1) := tableExists t e
  if r.code ≠ 200 then ({ code := 500 }, e1)
  else if r.status = some true then addFields t fields delete_unused e1
  else
    let (fail, e2) := tick e1
    if fail then ({ code := 500, status := some false }, e2)
    else ({ code := 200, status := some true },
          { e2 with
             storage := e2.storage ++
               [(t, { cols := fields.map (fun f => ⟨f.name, f.type⟩), rows := [] })],
             trace := e2.trace ++ [.createTable t] })

/-- `fields.every((e, i) => table_fields[i].name == e.name)` from
`reorderFields`. The source indexes `table_fields[i]` unguarded; an
out-of-range access is modelled as a mismatch. -/
def reorderMatch : List TableColumn → List PhysColumn → Bool
  | [], _ => true
  | _ :: _, [] => false
  | f :: fs, p :: ps => p.name == f.name && reorderMatch fs ps

/-- Remove the first physical column with the given name from the pool
(`table_fields.splice(index, 1)` in the source). -/
def extractByName (nm : String) : List PhysColumn → Option PhysColumn × List PhysColumn
  | [] => (none, [])
  | c :: cs =>
    if c.name = nm then (some c, cs)
    else
      let (r, rest) := extractByName nm cs
      (r, c :: rest)

/-- The declared-first column pick of `reorderFields`: for every declared
field take its physical counterpart out of the pool; the result is the
picked columns (a declared field with no physical counterpart yields
`null` in the source and is dropped here) and the leftover pool. -/
def pickCols : List TableColumn → List PhysColumn → List PhysColumn × List PhysColumn
  | [], pool => ([], pool)
  | f :: fs, pool =>
    match extractByName f.name pool with
    | (some c, pool2) =>
      let (picked, rest) := pickCols fs pool2
      (c :: picked, rest)
    | (none, _) => pickCols fs pool

/-- A `PRAGMA table_info` row used as a column declaration
(`createTable(temp, db_fields)` in `reorderFields`): only name and type
are present, every declaration-only attribute is `undefined`. -/
def physToColumn (c : PhysColumn) : TableColumn :=
  { name := c.name, type := c.type }

/-- The copy statement of `reorderFields`:
`INSERT INTO dst SELECT <names> FROM src`. -/
def insertSelectCols (dst src : String) (names : List String)
    (e : Engine) : ApiResponse × Engine :=
  let (fail, e1) := tick e
  if fail then ({ code := 500 }, e1) else
  match e1.storage.lookup dst, e1.storage.lookup src with
  | some dpt, some spt =>
    if names.all (fun n => spt.cols.any (fun c => c.name == n)) ∧
       names.length = dpt.cols.length then
      let newRows := spt.rows.map (fun r =>
        (dpt.cols.map (fun c => c.name)).zip (names.map (fun n => rowGet r n)))
      ({ code := 200 },
       { e1 with
          storage := mapTable e1.storage dst (fun pt => { pt with rows := pt.rows ++ newRows }),
          trace := e1.trace ++ [.insertSelect src dst] })
    else ({ code := 500 }, e1)
  | _, _ => ({ code := 500 }, e1)

/-- `Database.reorderFields`: no-op when the physical prefix already
matches the declared order, otherwise rebuild through a temporary table
(the random temporary name is modelled by the `tempName` parameter). -/
def reorderFields (t : String) (fields : List TableColumn) (delete_unused : Bool)
    (tempName : String) (e : Engine) : ApiResponse × Engine :=
  let (fail, e1) := tick e
  if fail then ({ code := 500, status := some false }, e1)
  else
    let table_fields := ((e1.storage.lookup t).map (fun pt => pt.cols)).getD []
    if reorderMatch fields table_fields then ({ code := 200, status := some false }, e1)
    else
      let (picked, leftovers) := pickCols fields table_fields
      let db_fields := picked ++ leftovers
      let (_, e2) := deleteTable tempName e1
      let (r1, e3) := createTable tempName (db_fields.map physToColumn) delete_unused e2
      if r1.code ≠ 200 then (r1, e3)
      else
        let (r2, e4) := insertSelectCols tempName t (db_fields.map (fun c => c.name)) e3
        if r2.code ≠ 200 then ({ code := r2.code, status := some false }, e4)
        else
          let (r3, e5) := deleteTable t e4
          if r3.code ≠ 200 then ({ code := r3.code, status := some false }, e5)
          else
            let (r4, e6) := renameTable tempName t e5
            if r4.code ≠ 200 then ({ code := r4.code, status := some false }, e6)
            else ({ code := 200, status := some true }, e6)

/-- What `Database.open` leaves behind: its result, the `ready` flag, and
whether the maintenance timers were started. -/
structure OpenOutcome where
  resp : ApiResponse
  ready : Bool
  backupTimerSet : Bool
  vacuumTimerSet : Bool
  engine : Engine
deriving DecidableEq, Repr

/-- `Database.open`: open the handle (`openErr` models the sqlite open
callback error), run `createTable` (and, when enabled, `reorderFields`)
for every declared table with all results ignored, drop physical tables
absent from the schema when `delete_unused` is set, then unconditionally
set `ready`, start the enabled timers and resolve `{code:200,status:true}`. -/
def openDb (tables : List (String × List TableColumn))
    (delete_unused reorder backup_enabled vacuum_enabled : Bool)
    (openErr : Bool) (e : Engine) : OpenOutcome :=
  if openErr then
    { resp := { code := 500, status := some false }, ready := false,
      backupTimerSet := false, vacuumTimerSet := false, engine := e }
  else
    let e1 := tables.foldl
      (fun ec p =>
        let (_, ec1) := createTable p.1 p.2 delete_unused ec
        if reorder then (reorderFields p.1 p.2 delete_unused ("temp_" ++ p.1) ec1).2
        else ec1) e
    let (tr, e2) := getTables e1
    let e3 := tr.rows.foldl
      (fun ec t =>
        if delete_unused && (tables.lookup t).isNone then (deleteTable t ec).2 else ec) e2
    { resp := { code := 200, status := some true }, ready := true,
      backupTimerSet := backup_enabled, vacuumTimerSet := vacuum_enabled, engine := e3 }

/-- Filesystem calls issued by `Database.backup`. -/
inductive FsOp where
  | mkdir (p : String)
  | unlink (p : String)
  | copy (src dst : String)
deriving DecidableEq, Repr

/-- State seen by `Database.backup`: the shared busy flag, the files on
disk (path with an abstract content token), and the attempted calls. -/
structure BackupState where
  busy : Bool
  fs : List (String × Nat)
  fsTrace : List FsOp
deriving DecidableEq, Repr

/-- `path.dirname`. -/
def dirnameOf (p : String) : String :=
  let parts := p.splitOn "/"
  if parts.length ≤ 1 then "." else String.intercalate "/" parts.dropLast

/-- `Database.backup`: busy gate, `mkdir -p`, `unlink` of the stale
backup (any failure — in this model, the file being absent — returns the
`-4082` sentinel), set busy, `copyFile`, clear busy. A failing copy
returns early with busy still set, exactly as the source does. -/
def backup (dbFilename backupFilename : String) (filename? : Option String)
    (s : BackupState) : ApiResponse × BackupState :=
  if s.busy then ({ code := 429, status := some false }, s)
  else
    let filename := filename?.getD backupFilename
    let s1 := { s with fsTrace := s.fsTrace ++ [FsOp.mkdir (dirnameOf filename)] }
    if (s1.fs.lookup filename).isSome then
      let s2 := { s1 with
                   fs := s1.fs.filter (fun kv => decide (kv.1 ≠ filename)),
                   fsTrace := s1.fsTrace ++ [FsOp.unlink filename] }
      let s3 := { s2 with busy := true }
      match s3.fs.lookup dbFilename with
      | some c =>
        ({ code := 200, status := some true },
         { s3 with
            fs := s3.fs ++ [(filename, c)], busy := false,
            fsTrace := s3.fsTrace ++ [FsOp.copy dbFilename filename] })
      | none =>
        ({ code := 500, status := some false },
         { s3 with fsTrace := s3.fsTrace ++ [FsOp.copy dbFilename filename] })
    else
      ({ code := -4082, status := some false },
       { s1 with fsTrace := s1.fsTrace ++ [FsOp.unlink filename] })

/-- Two engine states agree on everything but the call counter: same
storage, same executed-statement trace, same failure oracle. Used to say
that a code path performed no change and no mutating statement. -/
def EngineQuiet (e e2 : Engine) : Prop :=
  e2.storage = e.storage ∧ e2.trace = e.trace ∧ e2.failSet = e.failSet

/-- A physical table already conformant to its declaration: every
declared column exists physically; when `delete_unused` is set no
physical column is undeclared; when `reorder` is set the physical prefix
is in declared order. This is the state `open()` leaves behind after a
successful migration. -/
def tableConformant (fields : List TableColumn) (pt : PhysTable)
    (delete_unused reorder : Bool) : Bool :=
  fields.all (fun f => (pt.cols.map (fun c => c.name)).contains f.name) &&
  (!delete_unused || (pt.cols.map (fun c => c.name)).all
    (fun n => (fields.map (fun f => f.name)).contains n)) &&
  (!reorder || reorderMatch fields pt.cols)

/-- Whole-storage conformance: every declared table exists and is
conformant, and (when `delete_unused` is set) every physical table is
declared. -/
def storageConformant (tables : List (String × List TableColumn))
    (delete_unused reorder : Bool) (storage : List (String × PhysTable)) : Bool :=
  tables.all (fun p =>
    match storage.lookup p.1 with
    | some pt => tableConformant p.2 pt delete_unused reorder
    | none => false) &&
  (!delete_unused || storage.all (fun q => (tables.lookup q.1).isSome))

/-- Refinement target for `save()`, phrased after the spec: if a row
with the instance's primary-key value exists, exactly the non-key
columns whose current value differs from the snapshot are set on every
matching row; otherwise a row holding all declared columns (in declared
order, with the instance's values) is appended. -/
def specSaveRows (schema : List TableColumn) (pk : String) (i : Instance)
    (rows : List Row) : List Row :=
  let pkValue := instGet i pk
  let diffs := (schema.filter (fun c => !c.pkey)).filter
    (fun c => instGet i c.name != origGet i c.name)
  if rows.any (fun r => sqlEq (rowGet r pk) pkValue) then
    rows.map (fun r =>
      if sqlEq (rowGet r pk) pkValue then
        diffs.foldl (fun r2 c => setAssoc r2 c.name (instGet i c.name)) r
      else r)
  else rows ++ [schema.map (fun c => (c.name, instGet i c.name))]

/-! ## Helper lemmas -/

theorem tick_no_fail (e : Engine) (h : e.failSet = []) :
    tick e = (false, { e with calls := e.calls + 1 }) := by
  simp [tick, h]

theorem lookup_cons_self {b : Type} (k : String) (v : b) (l : List (String × b)) :
    List.lookup k ((k, v) :: l) = some v := by
  simp [List.lookup]

theorem lookup_cons_ne {b : Type} (a k : String) (v : b) (l : List (String × b))
    (h : a ≠ k) : List.lookup a ((k, v) :: l) = List.lookup a l := by
  simp [List.lookup, beq_false_of_ne h]

theorem lookup_mapTable_self (storage : List (String × PhysTable)) (t : String)
    (f : PhysTable → PhysTable) (pt : PhysTable) (h : storage.lookup t = some pt) :
    (mapTable storage t f).lookup t = some (f pt) := by
  induction storage with
  | nil => simp [List.lookup] at h
  | cons p ps ih =>
    obtain ⟨k, v⟩ := p
    by_cases hp : t = k
    · subst hp
      rw [lookup_cons_self] at h
      injection h with h
      subst h
      show List.lookup t ((if t = t then (t, f v) else (t, v)) :: mapTable ps t f) = some (f v)
      rw [if_pos rfl, lookup_cons_self]
    · rw [lookup_cons_ne _ _ _ _ hp] at h
      show List.lookup t ((if k = t then (k, f v) else (k, v)) :: mapTable ps t f) = some (f pt)
      rw [if_neg (Ne.symm hp), lookup_cons_ne _ _ _ _ hp]
      exact ih h

theorem lookup_mapTable_ne (storage : List (String × PhysTable)) (t t2 : String)
    (f : PhysTable → PhysTable) (h : t2 ≠ t) :
    (mapTable storage t f).lookup t2 = storage.lookup t2 := by
  induction storage with
  | nil => rfl
  | cons p ps ih =>
    obtain ⟨k, v⟩ := p
    show List.lookup t2 ((if k = t then (k, f v) else (k, v)) :: mapTable ps t f) =
      List.lookup t2 ((k, v) :: ps)
    by_cases hk : k = t
    · have h2 : t2 ≠ k := fun hh => h (hh.trans hk)
      rw [if_pos hk, lookup_cons_ne _ _ _ _ h2, lookup_cons_ne _ _ _ _ h2, ih]
    · rw [if_neg hk]
      by_cases hz : t2 = k
      · subst hz
        rw [lookup_cons_self, lookup_cons_self]
      · rw [lookup_cons_ne _ _ _ _ hz, lookup_cons_ne _ _ _ _ hz, ih]

/-! ## Claim C5 -/

/-- C5: `backup()` invoked while the shared busy signal is set returns
`{code: 429, status: false}`, performs no file operation (the
attempted-call trace is unchanged), and leaves the busy flag and all
storage exactly as they were. -/
theorem backup_while_busy_rejected (dbF bakF : String) (fn : Option String)
    (s : BackupState) (h : s.busy = true) :
    backup dbF bakF fn s = ({ code := 429, status := some false }, s) := by
  simp [backup, h]

/-- Witness for `backup_while_busy_rejected` at a concrete state. -/
theorem backup_while_busy_rejected_witness :
    backup "live.db" "bak.db" none { busy := true, fs := [("live.db", 1)], fsTrace := [] } =
      ({ code := 429, status := some false },
       { busy := true, fs := [("live.db", 1)], fsTrace := [] }) :=
  backup_while_busy_rejected "live.db" "bak.db" none _ rfl

/-! ## Claim C3 -/

/-- C3 counterexample: with the busy signal clear and no file at the
destination, `backup()` returns the `-4082` sentinel but does NOT copy
the live storage file — the destination is still absent afterwards,
refuting the claim that the copy still happens. -/
theorem backup_missing_stale_counterexample :
    (backup "live.db" "bak.db" none
        { busy := false, fs := [("live.db", 1)], fsTrace := [] }).1 =
      { code := -4082, status := some false } ∧
    (backup "live.db" "bak.db" none
        { busy := false, fs := [("live.db", 1)], fsTrace := [] }).2.fs =
      [("live.db", 1)] := by
  constructor <;> rfl

/-- C3 amended: when the busy signal is clear and no file exists at the
destination, `backup()` reports the distinct non-fatal sentinel `-4082`
but returns immediately without copying: the filesystem is unchanged,
the busy flag stays clear, and the only attempted calls are the `mkdir`
and the failing `unlink`. -/
theorem backup_missing_stale_sentinel (dbF bakF : String) (fn : Option String)
    (s : BackupState) (hb : s.busy = false)
    (hmiss : s.fs.lookup (fn.getD bakF) = none) :
    (backup dbF bakF fn s).1 = { code := -4082, status := some false } ∧
    (backup dbF bakF fn s).2.fs = s.fs ∧
    (backup dbF bakF fn s).2.busy = false ∧
    (backup dbF bakF fn s).2.fsTrace =
      s.fsTrace ++ [FsOp.mkdir (dirnameOf (fn.getD bakF)), FsOp.unlink (fn.getD bakF)] := by
  simp [backup, hb, hmiss]

/-- Witness for `backup_missing_stale_sentinel` at a concrete state. -/
theorem backup_missing_stale_sentinel_witness :
    (backup "live.db" "bak.db" none
        { busy := false, fs := [("live.db", 1)], fsTrace := [] }).1 =
      { code := -4082, status := some false } ∧
    (backup "live.db" "bak.db" none
        { busy := false, fs := [("live.db", 1)], fsTrace := [] }).2.fs = [("live.db", 1)] ∧
    (backup "live.db" "bak.db" none
        { busy := false, fs := [("live.db", 1)], fsTrace := [] }).2.busy = false ∧
    (backup "live.db" "bak.db" none
        { busy := false, fs := [("live.db", 1)], fsTrace := [] }).2.fsTrace =
      [] ++ [FsOp.mkdir (dirnameOf "bak.db"), FsOp.unlink "bak.db"] :=
  backup_missing_stale_sentinel "live.db" "bak.db" none _ rfl rfl

/-! ## Claim C4 -/

/-- C4 counterexample: the destination file exists (so the unlink
succeeds) but the live storage file is missing, so the copy fails;
`backup()` then returns with the busy flag still set, and a subsequent
`backup()` is rejected with 429 — refuting the claim that the busy
signal is always released. -/
theorem backup_busy_leak_counterexample :
    (backup "live.db" "bak.db" none
        { busy := false, fs := [("bak.db", 7)], fsTrace := [] }).2.busy = true ∧
    (backup "live.db" "bak.db" none
        ((backup "live.db" "bak.db" none
          { busy := false, fs := [("bak.db", 7)], fsTrace := [] }).2)).1 =
      { code := 429, status := some false } := by
  constructor <;> rfl

/-- C4 amended: an invocation of `backup()` that passes the initial busy
check ends with the busy flag set if and only if the stale-file removal
succeeded and the copy then failed (the live storage file was absent
after the unlink); in every other case — unlink failure before busy was
set, or a successful copy — the flag is clear on return. -/
theorem backup_busy_release_iff (dbF bakF : String) (fn : Option String)
    (s : BackupState) (hb : s.busy = false) :
    (backup dbF bakF fn s).2.busy = true ↔
      ((s.fs.lookup (fn.getD bakF)).isSome = true ∧
       (s.fs.filter (fun kv => decide (kv.1 ≠ fn.getD bakF))).lookup dbF = none) := by
  by_cases hlook : (s.fs.lookup (fn.getD bakF)).isSome = true
  · cases hcopy : (s.fs.filter (fun kv => decide (kv.1 ≠ fn.getD bakF))).lookup dbF with
    | none =>
      simp only [ne_eq, decide_not] at hcopy
      simp [backup, hb, hlook, hcopy]
    | some c =>
      simp only [ne_eq, decide_not] at hcopy
      simp [backup, hb, hlook, hcopy]
  · simp [backup, hb, hlook]

/-- Witness for `backup_busy_release_iff` at a concrete state where the
copy fails: the busy flag is indeed left set. -/
theorem backup_busy_release_iff_witness :
    (backup "live.db" "bak.db" none
        { busy := false, fs := [("bak.db", 7)], fsTrace := [] }).2.busy = true :=
  (backup_busy_release_iff "live.db" "bak.db" none _ rfl).mpr ⟨rfl, rfl⟩

/-! ## Claim C6 -/

/-- C6 (code bug): `fromObject` builds the destination instance from
`schema.map(col => obj[col.name])`; a destination column missing from
the source mapping receives `undefined` (`vNull`) — the declared
`default_value` is never applied, contradicting both the spec and the
source's own comment that missing fields use defaults. Extra source
fields (here `"b"`) are ignored, as claimed. Evaluated at the failing
input: destination column `"a"` declares default `"d"`, the source
mapping has only `"b"`, and the result holds `vNull`, not `"d"`. -/
theorem fromObject_default_divergence :
    fromObject [{ name := "a", type := SQLType.text, default_value := some (Value.vText "d") }]
        [("b", Value.vText "x")] =
      { cur := [("a", Value.vNull)], orig := [("a", Value.vNull)] } := by rfl

/-! ## Claim C10 -/

/-- C10: an update through `Database.setValue` whose predicate matches
zero rows and whose statement runs without engine error returns exactly
`{code: 200, status: false, changes: 0}` — not 404; and the per-column
`updateValues` helper delegates to the very same `Database.setValue`. -/
theorem setValue_not_found_envelope (t f : String) (v : Value) (sf : String)
    (sv : Value) (e : Engine) (pt : PhysTable)
    (hns : e.failSet = [])
    (ht : e.storage.lookup t = some pt)
    (hf : pt.cols.any (fun c => c.name == f) = true)
    (hsf : pt.cols.any (fun c => c.name == sf) = true)
    (hzero : pt.rows.filter (fun r => sqlEq (rowGet r sf) sv) = []) :
    (dbSetValue t f v sf sv e).1 = { code := 200, status := some false, changes := some 0 } ∧
    (∀ (schema : List TableColumn) (nv wv : Value),
      columnUpdateValues schema t f nv sf wv e = dbSetValue t f nv sf wv e) := by
  constructor
  · simp [dbSetValue, tick_no_fail e hns, ht, hf, hsf, hzero]
  · intro schema nv wv
    rfl

/-- Witness for `setValue_not_found_envelope` at a concrete store with
one row that does not match the predicate. -/
theorem setValue_not_found_envelope_witness :
    (dbSetValue "t" "u" (Value.vText "z") "id" (Value.vText "q")
      { storage := [("t", { cols := [⟨"id", SQLType.text⟩, ⟨"u", SQLType.text⟩],
                            rows := [[("id", Value.vText "x"), ("u", Value.vText "y")]] })],
        failSet := [], calls := 0, trace := [] }).1 =
      { code := 200, status := some false, changes := some 0 } :=
  (setValue_not_found_envelope "t" "u" (Value.vText "z") "id" (Value.vText "q")
    { storage := [("t", { cols := [⟨"id", SQLType.text⟩, ⟨"u", SQLType.text⟩],
                          rows := [[("id", Value.vText "x"), ("u", Value.vText "y")]] })],
      failSet := [], calls := 0, trace := [] }
    { cols := [⟨"id", SQLType.text⟩, ⟨"u", SQLType.text⟩],
      rows := [[("id", Value.vText "x"), ("u", Value.vText "y")]] }
    rfl rfl rfl rfl rfl).1

/-! ## Claim C1 -/

/-- C1 counterexample: table `t` exists with only its key column; the
engine call adding column `a` (call index 2) fails. `open()` still
reports `{code:200,status:true}`, still sets `ready`, and the later
migration step for column `b` still executes (column `b` is present and
traced, column `a` is absent) — refuting both the fail-fast abort and
the never-Ready parts of the claim. -/
theorem open_failfast_counterexample :
    (openDb [("t", [{ name := "id", type := SQLType.text, pkey := true },
                    { name := "a", type := SQLType.text },
                    { name := "b", type := SQLType.text }])] false false false false false
        { storage := [("t", { cols := [⟨"id", SQLType.text⟩], rows := [] })],
          failSet := [2], calls := 0, trace := [] }).ready = true ∧
    (openDb [("t", [{ name := "id", type := SQLType.text, pkey := true },
                    { name := "a", type := SQLType.text },
                    { name := "b", type := SQLType.text }])] false false false false false
        { storage := [("t", { cols := [⟨"id", SQLType.text⟩], rows := [] })],
          failSet := [2], calls := 0, trace := [] }).resp =
      { code := 200, status := some true } ∧
    (openDb [("t", [{ name := "id", type := SQLType.text, pkey := true },
                    { name := "a", type := SQLType.text },
                    { name := "b", type := SQLType.text }])] false false false false false
        { storage := [("t", { cols := [⟨"id", SQLType.text⟩], rows := [] })],
          failSet := [2], calls := 0, trace := [] }).engine.trace =
      [Op.addColumn "t" "b"] ∧
    (openDb [("t", [{ name := "id", type := SQLType.text, pkey := true },
                    { name := "a", type := SQLType.text },
                    { name := "b", type := SQLType.text }])] false false false false false
        { storage := [("t", { cols := [⟨"id", SQLType.text⟩], rows := [] })],
          failSet := [2], calls := 0, trace := [] }).engine.storage =
      [("t", { cols := [⟨"id", SQLType.text⟩, ⟨"b", SQLType.text⟩], rows := [] })] := by
  refine ⟨?_, ?_, ?_, ?_⟩ <;> rfl

/-- C1 amended: once the storage handle opens (and with column
reordering disabled), `open()` unconditionally marks the database
ready, starts exactly the enabled timers, and resolves
`{code:200,status:true}` — for every schema, every initial storage
state and every pattern of migration-step failures; a failing step's
error surfaces only in the inner per-table result, which `open()`
ignores, and the remaining steps still execute. -/
theorem open_reports_success_regardless (tables : List (String × List TableColumn))
    (du be ve : Bool) (e : Engine) :
    (openDb tables du false be ve false e).ready = true ∧
    (openDb tables du false be ve false e).resp = { code := 200, status := some true } ∧
    (openDb tables du false be ve false e).backupTimerSet = be ∧
    (openDb tables du false be ve false e).vacuumTimerSet = ve := by
  refine ⟨?_, ?_, ?_, ?_⟩ <;> simp [openDb]

/-! ## Claim C9 -/

/-- C9: on a table declared without a primary-key column, every
identity-based operation — static `find`, static `delete`, static
`setValue`, instance `save`, `delete`, `move`, `convert`, and the
per-column `setValue` helper — raises the configuration error before
any engine call (the error is returned without the engine ever being
touched or ticked), while scan/read operations remain available:
`create` builds the instance, `all` returns one instance per stored
row, and the per-column `fetch` returns the matching rows as instances. -/
theorem keyless_table_ops (schema : List TableColumn) (tn toTn f : String)
    (v pkv : Value) (i : Instance) (args : List Value) (e : Engine) (pt : PhysTable)
    (h : primaryKeyColumn schema = none)
    (hns : e.failSet = [])
    (ht : e.storage.lookup tn = some pt)
    (hf : pt.cols.any (fun c => c.name == f) = true) :
    modelFind schema tn pkv e = .error .configError ∧
    modelStaticDelete schema tn pkv e = .error .configError ∧
    modelStaticSetValue schema tn f v pkv e = .error .configError ∧
    columnSetValue schema tn f pkv v e = .error .configError ∧
    modelSave schema tn i e = .error .configError ∧
    modelDelete schema tn i e = .error .configError ∧
    modelMove schema tn toTn i e = .error .configError ∧
    modelConvert schema tn schema toTn i e = .error .configError ∧
    modelCreate schema args = mkInstance schema args ∧
    (modelAll schema tn e).1 = pt.rows.map (fromObject schema) ∧
    (columnFetch schema tn f v none e).1 =
      (pt.rows.filter (fun r => sqlEq (rowGet r f) v)).map (fromObject schema) := by
  refine ⟨?_, ?_, ?_, ?_, ?_, ?_, ?_, ?_, rfl, ?_, ?_⟩
  · simp [modelFind, h]
  · simp [modelStaticDelete, h]
  · simp [modelStaticSetValue, h]
  · simp [columnSetValue, h]
  · simp [modelSave, h]
  · simp [modelDelete, h]
  · simp [modelMove, h]
  · simp [modelConvert, h]
  · simp [modelAll, getRows, tick_no_fail e hns, ht, takeLimit]
  · simp [columnFetch, getRows, tick_no_fail e hns, ht, hf, takeLimit]

/-- Witness for `keyless_table_ops` on a concrete key-less table. -/
theorem keyless_table_ops_witness :
    modelFind [{ name := "u", type := SQLType.text }] "t2" (Value.vText "a")
      { storage := [("t2", { cols := [⟨"u", SQLType.text⟩],
                             rows := [[("u", Value.vText "x")]] })],
        failSet := [], calls := 0, trace := [] } = .error .configError ∧
    (modelAll [{ name := "u", type := SQLType.text }] "t2"
      { storage := [("t2", { cols := [⟨"u", SQLType.text⟩],
                             rows := [[("u", Value.vText "x")]] })],
        failSet := [], calls := 0, trace := [] }).1 =
      [[("u", Value.vText "x")]].map (fromObject [{ name := "u", type := SQLType.text }]) := by
  have h := keyless_table_ops [{ name := "u", type := SQLType.text }] "t2" "t2" "u"
    (Value.vText "x") (Value.vText "a")
    { cur := [("u", Value.vText "x")], orig := [("u", Value.vText "x")] } []
    { storage := [("t2", { cols := [⟨"u", SQLType.text⟩],
                           rows := [[("u", Value.vText "x")]] })],
      failSet := [], calls := 0, trace := [] }
    { cols := [⟨"u", SQLType.text⟩], rows := [[("u", Value.vText "x")]] }
    rfl rfl rfl rfl
  exact ⟨h.1, h.2.2.2.2.2.2.2.2.2.1⟩

/-! ## Claim C7 -/

theorem valueExists_storage (t f : String) (v : Value) (e : Engine) :
    (valueExists t f v e).2.storage = e.storage := by
  unfold valueExists tick
  dsimp only
  split
  · rfl
  · split
    · rfl
    · split <;> rfl

theorem addValues_lookup_ne (t : String) (args : List Value) (e : Engine)
    (t2 : String) (h : t2 ≠ t) :
    (addValues t args e).2.storage.lookup t2 = e.storage.lookup t2 := by
  unfold addValues tick
  dsimp only
  split
  · rfl
  · split
    · rfl
    · split
      · simpa using lookup_mapTable_ne _ _ _ _ h
      · rfl

theorem dbSetValue_lookup_ne (t f : String) (v : Value) (sf : String) (sv : Value)
    (e : Engine) (t2 : String) (h : t2 ≠ t) :
    (dbSetValue t f v sf sv e).2.storage.lookup t2 = e.storage.lookup t2 := by
  unfold dbSetValue tick
  dsimp only
  split
  · rfl
  · split
    · rfl
    · split
      · simpa using lookup_mapTable_ne _ _ _ _ h
      · rfl

theorem setValueFold_lookup_ne (tn pk : String) (pkValue : Value) (i : Instance)
    (t2 : String) (h : t2 ≠ tn) (cols : List TableColumn) :
    ∀ (acc : List ApiResponse) (e : Engine),
      ((cols.foldl (fun acc c =>
          let (r, e3) := dbSetValue tn c.name (instGet i c.name) pk pkValue acc.2
          (acc.1 ++ [r], e3)) (acc, e)).2).storage.lookup t2 =
        e.storage.lookup t2 := by
  induction cols with
  | nil => intro acc e; rfl
  | cons c cs ih =>
    intro acc e
    rw [List.foldl_cons]
    dsimp only
    exact (ih _ _).trans (dbSetValue_lookup_ne _ _ _ _ _ _ _ h)

theorem modelSave_lookup_ne (schema : List TableColumn) (tn : String) (i : Instance)
    (e : Engine) (t2 : String) (h : t2 ≠ tn) (r : ApiResponse) (i2 : Instance) (e2 : Engine)
    (hsv : modelSave schema tn i e = .ok (r, i2, e2)) :
    e2.storage.lookup t2 = e.storage.lookup t2 := by
  unfold modelSave at hsv
  cases hpk : primaryKeyColumn schema with
  | none => rw [hpk] at hsv; cases hsv
  | some pk =>
    rw [hpk] at hsv
    dsimp only at hsv
    split at hsv
    · simp only [Except.ok.injEq, Prod.mk.injEq] at hsv
      obtain ⟨-, -, he2⟩ := hsv
      rw [← he2]
      exact (addValues_lookup_ne _ _ _ _ h).trans
        (by rw [valueExists_storage])
    · simp only [Except.ok.injEq, Prod.mk.injEq] at hsv
      obtain ⟨-, -, he2⟩ := hsv
      rw [← he2]
      exact (setValueFold_lookup_ne tn pk (instGet i pk) i t2 h _ _ _).trans
        (by rw [valueExists_storage])

/-- C7: for every `convert(destinationModel)` call (destination table
distinct from the source table), (a) if the destination save reports
failure, convert returns `none` and the source table entry in storage is
untouched; (b) if convert returns a new instance, the destination save
necessarily reported success (the original is deleted only after
successful persistence, and the returned instance is the saved one). -/
theorem convert_deletes_only_after_save (srcSchema dstSchema : List TableColumn)
    (srcTn dstTn : String) (i : Instance) (e : Engine) (pk : String)
    (hpk : primaryKeyColumn srcSchema = some pk)
    (hne : srcTn ≠ dstTn) :
    (∀ sr i2 e2,
      modelSave dstSchema dstTn (fromObject dstSchema (toObject srcSchema true i)) e =
        .ok (sr, i2, e2) →
      sr.status ≠ some true →
      modelConvert srcSchema srcTn dstSchema dstTn i e = .ok (none, e2) ∧
      e2.storage.lookup srcTn = e.storage.lookup srcTn) ∧
    (∀ res e3,
      modelConvert srcSchema srcTn dstSchema dstTn i e = .ok (some res, e3) →
      ∃ sr i2 e2,
        modelSave dstSchema dstTn (fromObject dstSchema (toObject srcSchema true i)) e =
          .ok (sr, i2, e2) ∧ sr.status = some true ∧ res = i2) := by
  constructor
  · intro sr i2 e2 hsave hfail
    constructor
    · unfold modelConvert
      rw [hpk]
      dsimp only
      rw [hsave]
      dsimp only
      rw [if_pos hfail]
    · exact modelSave_lookup_ne dstSchema dstTn _ e srcTn hne sr i2 e2 hsave
  · intro res e3 hconv
    unfold modelConvert at hconv
    rw [hpk] at hconv
    dsimp only at hconv
    cases hsave : modelSave dstSchema dstTn (fromObject dstSchema (toObject srcSchema true i)) e with
    | error err =>
      rw [hsave] at hconv
      cases hconv
    | ok x =>
      obtain ⟨sr, i2, e2⟩ := x
      rw [hsave] at hconv
      dsimp only at hconv
      split at hconv
      · simp at hconv
      · unfold modelDelete at hconv
        rw [hpk] at hconv
        dsimp only at hconv
        simp only [Except.ok.injEq, Prod.mk.injEq, Option.some.injEq] at hconv
        exact ⟨sr, i2, e2, rfl, not_ne_iff.mp (by assumption), hconv.1.symm⟩

/-- Witness for `convert_deletes_only_after_save`: converting toward a
missing destination table makes the destination save fail; convert
returns `none` and the source table is untouched. -/
theorem convert_deletes_only_after_save_witness :
    modelConvert
      [{ name := "id", type := SQLType.text, pkey := true },
       { name := "u", type := SQLType.text }] "t2"
      [{ name := "id", type := SQLType.text, pkey := true },
       { name := "w", type := SQLType.text }] "missing"
      { cur := [("id", Value.vText "a"), ("u", Value.vText "y")],
        orig := [("id", Value.vText "a"), ("u", Value.vText "x")] }
      { storage := [("t2", { cols := [⟨"id", SQLType.text⟩, ⟨"u", SQLType.text⟩],
                             rows := [[("id", Value.vText "a"), ("u", Value.vText "x")]] })],
        failSet := [], calls := 0, trace := [] } =
      .ok (none,
        { storage := [("t2", { cols := [⟨"id", SQLType.text⟩, ⟨"u", SQLType.text⟩],
                               rows := [[("id", Value.vText "a"), ("u", Value.vText "x")]] })],
          failSet := [], calls := 2, trace := [] }) ∧
    List.lookup "t2"
      ({ storage := [("t2", { cols := [⟨"id", SQLType.text⟩, ⟨"u", SQLType.text⟩],
                              rows := [[("id", Value.vText "a"), ("u", Value.vText "x")]] })],
         failSet := [], calls := 2, trace := [] } : Engine).storage =
    List.lookup "t2"
      ({ storage := [("t2", { cols := [⟨"id", SQLType.text⟩, ⟨"u", SQLType.text⟩],
                              rows := [[("id", Value.vText "a"), ("u", Value.vText "x")]] })],
         failSet := [], calls := 0, trace := [] } : Engine).storage :=
  (convert_deletes_only_after_save
    [{ name := "id", type := SQLType.text, pkey := true },
     { name := "u", type := SQLType.text }]
    [{ name := "id", type := SQLType.text, pkey := true },
     { name := "w", type := SQLType.text }]
    "t2" "missing"
    { cur := [("id", Value.vText "a"), ("u", Value.vText "y")],
      orig := [("id", Value.vText "a"), ("u", Value.vText "x")] }
    { storage := [("t2", { cols := [⟨"id", SQLType.text⟩, ⟨"u", SQLType.text⟩],
                           rows := [[("id", Value.vText "a"), ("u", Value.vText "x")]] })],
      failSet := [], calls := 0, trace := [] }
    "id" rfl (by decide)).1
    { code := 500 }
    { cur := [("id", Value.vText "a"), ("w", Value.vNull)],
      orig := [("id", Value.vText "a"), ("w", Value.vNull)] }
    { storage := [("t2", { cols := [⟨"id", SQLType.text⟩, ⟨"u", SQLType.text⟩],
                           rows := [[("id", Value.vText "a"), ("u", Value.vText "x")]] })],
      failSet := [], calls := 2, trace := [] }
    rfl (by decide)

/-! ## Claim C2 -/

theorem lookup_map_setfield_ne (f g : String) (v : Value) (h : g ≠ f) :
    ∀ (r : Row),
      List.lookup g (r.map (fun kv => if kv.1 = f then (kv.1, v) else kv)) =
        List.lookup g r := by
  intro r
  induction r with
  | nil => rfl
  | cons kv rs ih =>
    obtain ⟨k, w⟩ := kv
    by_cases hk : k = f
    · subst hk
      show List.lookup g ((if k = k then (k, v) else (k, w)) :: _) = _
      rw [if_pos rfl, lookup_cons_ne _ _ _ _ h, lookup_cons_ne _ _ _ _ h, ih]
    · show List.lookup g ((if k = f then (k, v) else (k, w)) :: _) = _
      rw [if_neg hk]
      by_cases hg : g = k
      · subst hg
        rw [lookup_cons_self, lookup_cons_self]
      · rw [lookup_cons_ne _ _ _ _ hg, lookup_cons_ne _ _ _ _ hg, ih]

theorem lookup_append_single_ne (f g : String) (v : Value) (h : g ≠ f) :
    ∀ (r : Row), List.lookup g (r ++ [(f, v)]) = List.lookup g r := by
  intro r
  induction r with
  | nil => simp [List.lookup, beq_false_of_ne h]
  | cons kv rs ih =>
    obtain ⟨k, w⟩ := kv
    by_cases hg : g = k
    · subst hg
      rw [List.cons_append, lookup_cons_self, lookup_cons_self]
    · rw [List.cons_append, lookup_cons_ne _ _ _ _ hg, lookup_cons_ne _ _ _ _ hg, ih]

theorem rowGet_setAssoc_ne (r : Row) (f : String) (v : Value) (g : String)
    (h : g ≠ f) : rowGet (setAssoc r f v) g = rowGet r g := by
  unfold setAssoc rowGet
  split
  · rw [lookup_map_setfield_ne f g v h]
  · rw [lookup_append_single_ne f g v h]

theorem lookup_map_setfield_self (f : String) (v : Value) :
    ∀ (r : Row), (r.lookup f).isSome = true →
      List.lookup f (r.map (fun kv => if kv.1 = f then (kv.1, v) else kv)) = some v := by
  intro r
  induction r with
  | nil => intro h; simp [List.lookup] at h
  | cons kv rs ih =>
    obtain ⟨k, w⟩ := kv
    intro h
    by_cases hk : k = f
    · subst hk
      show List.lookup k ((if k = k then (k, v) else (k, w)) :: _) = _
      rw [if_pos rfl, lookup_cons_self]
    · show List.lookup f ((if k = f then (k, v) else (k, w)) :: _) = _
      rw [if_neg hk, lookup_cons_ne _ _ _ _ (Ne.symm hk)]
      rw [lookup_cons_ne _ _ _ _ (Ne.symm hk)] at h
      exact ih h

theorem rowGet_setAssoc_self (r : Row) (f : String) (v : Value) :
    rowGet (setAssoc r f v) f = v := by
  unfold setAssoc rowGet
  split
  · rw [lookup_map_setfield_self f v r (by assumption)]
    rfl
  · rename_i hn
    induction r with
    | nil => simp [List.lookup]
    | cons kv rs ih =>
      obtain ⟨k, w⟩ := kv
      by_cases hk : f = k
      · subst hk
        rw [lookup_cons_self] at hn
        simp at hn
      · rw [List.cons_append, lookup_cons_ne _ _ _ _ hk]
        rw [lookup_cons_ne _ _ _ _ hk] at hn
        exact ih hn

theorem rowGet_refreshFold (i : Instance) :
    ∀ (cols : List TableColumn) (o : Row) (nm : String),
      rowGet (cols.foldl (fun o c => setAssoc o c.name (instGet i c.name)) o) nm =
        if cols.any (fun c => c.name == nm) then instGet i nm else rowGet o nm := by
  intro cols
  induction cols with
  | nil => intro o nm; simp
  | cons c cs ih =>
    intro o nm
    rw [List.foldl_cons, ih]
    by_cases hcs : cs.any (fun c => c.name == nm) = true
    · simp [hcs]
    · simp only [Bool.not_eq_true] at hcs
      by_cases hnm : c.name = nm
      · subst hnm
        simp [hcs, List.any_cons, rowGet_setAssoc_self]
      · have hb : (c.name == nm) = false := beq_false_of_ne hnm
        simp [hcs, hb, List.any_cons, rowGet_setAssoc_ne o c.name _ nm (Ne.symm hnm)]

theorem map_ite_comp (hit : Row → Bool) (f g : Row → Row)
    (hstab : ∀ r, hit r = true → hit (f r) = true) :
    ∀ (rows : List Row),
      ((rows.map (fun r => if hit r then f r else r)).map
        (fun r => if hit r then g r else r)) =
      rows.map (fun r => if hit r then g (f r) else r) := by
  intro rows
  induction rows with
  | nil => rfl
  | cons r rs ih =>
    simp only [List.map_cons, ih]
    by_cases hr : hit r = true
    · rw [if_pos hr, if_pos hr, if_pos (hstab r hr)]
    · simp only [Bool.not_eq_true] at hr
      simp [hr]

theorem any_map_ite (hit : Row → Bool) (f : Row → Row)
    (hstab : ∀ r, hit r = true → hit (f r) = true) :
    ∀ (rows : List Row), rows.any hit = true →
      (rows.map (fun r => if hit r then f r else r)).any hit = true := by
  intro rows
  induction rows with
  | nil => intro h; simp at h
  | cons r rs ih =>
    intro h
    simp only [List.any_cons, Bool.or_eq_true] at h
    rcases h with h | h
    · simp only [List.map_cons, List.any_cons, if_pos h, hstab r h, Bool.true_or]
    · simp only [List.map_cons, List.any_cons, ih h, Bool.or_true]

theorem any_filter_length_pos (p : Row → Bool) :
    ∀ (rows : List Row), rows.any p = true → 0 < (rows.filter p).length := by
  intro rows
  induction rows with
  | nil => intro h; simp at h
  | cons r rs ih =>
    intro h
    simp only [List.any_cons, Bool.or_eq_true] at h
    by_cases hr : p r = true
    · simp [List.filter_cons, hr]
    · simp only [Bool.not_eq_true] at hr
      rcases h with h | h
      · rw [hr] at h
        cases h
      · simp [List.filter_cons, hr, ih h]

theorem valueExists_eval (t f : String) (v : Value) (e : Engine) (pt : PhysTable)
    (hns : e.failSet = []) (ht : e.storage.lookup t = some pt)
    (hf : pt.cols.any (fun c => c.name == f) = true) :
    valueExists t f v e =
      ({ code := 200, status := some (pt.rows.any (fun r => sqlEq (rowGet r f) v)) },
       { e with calls := e.calls + 1 }) := by
  unfold valueExists
  rw [tick_no_fail e hns]
  dsimp only
  rw [show ({ e with calls := e.calls + 1 } : Engine).storage.lookup t =
      some pt from ht]
  dsimp only
  rw [if_pos hf]
  rfl

theorem addValues_eval (t : String) (args : List Value) (e : Engine) (pt : PhysTable)
    (hns : e.failSet = []) (ht : e.storage.lookup t = some pt)
    (hlen : args.length = pt.cols.length) :
    addValues t args e =
      ({ code := 200, status := some true, changes := some 1 },
       { e with
          storage := mapTable e.storage t
            (fun pt0 => { pt0 with rows := pt0.rows ++ [(pt.cols.map (fun c => c.name)).zip args] }),
          calls := e.calls + 1,
          trace := e.trace ++ [Op.insert t] }) := by
  unfold addValues
  rw [tick_no_fail e hns]
  dsimp only
  rw [show ({ e with calls := e.calls + 1 } : Engine).storage.lookup t =
      some pt from ht]
  dsimp only
  rw [if_pos hlen]
  rfl

theorem dbSetValue_eval (t f : String) (v : Value) (sf : String) (sv : Value)
    (e : Engine) (pt : PhysTable)
    (hns : e.failSet = []) (ht : e.storage.lookup t = some pt)
    (hf : pt.cols.any (fun c => c.name == f) = true)
    (hsf : pt.cols.any (fun c => c.name == sf) = true) :
    dbSetValue t f v sf sv e =
      ({ code := 200,
         status := some (decide (0 < (pt.rows.filter (fun r => sqlEq (rowGet r sf) sv)).length)),
         changes := some (pt.rows.filter (fun r => sqlEq (rowGet r sf) sv)).length },
       { e with
          storage := mapTable e.storage t
            (fun pt0 => { pt0 with
              rows := pt.rows.map (fun r => if sqlEq (rowGet r sf) sv then setAssoc r f v else r) }),
          calls := e.calls + 1,
          trace := e.trace ++ [Op.update t f] }) := by
  unfold dbSetValue
  rw [tick_no_fail e hns]
  dsimp only
  rw [show ({ e with calls := e.calls + 1 } : Engine).storage.lookup t =
      some pt from ht]
  dsimp only
  have hcond : (pt.cols.any (fun c => c.name == f) && pt.cols.any (fun c => c.name == sf)) = true := by
    rw [hf, hsf]
    rfl
  rw [if_pos hcond]
  rfl

theorem saveUpdateFold (tn pk : String) (pkv : Value) (i : Instance)
    (physCols : List PhysColumn)
    (hpkc : physCols.any (fun c => c.name == pk) = true) :
    ∀ (cols : List TableColumn) (e : Engine) (rows : List Row) (acc : List ApiResponse)
      (results : List ApiResponse) (eF : Engine),
      e.failSet = [] →
      e.storage.lookup tn = some { cols := physCols, rows := rows } →
      (∀ c ∈ cols, physCols.any (fun cc => cc.name == c.name) = true) →
      (∀ c ∈ cols, c.name ≠ pk) →
      rows.any (fun r => sqlEq (rowGet r pk) pkv) = true →
      cols.foldl (fun acc c =>
          let (r, e3) := dbSetValue tn c.name (instGet i c.name) pk pkv acc.2
          (acc.1 ++ [r], e3)) (acc, e) = (results, eF) →
      results.all (fun r => r.status == some true) = acc.all (fun r => r.status == some true) ∧
      eF.storage.lookup tn =
        some { cols := physCols,
               rows := rows.map (fun r => if sqlEq (rowGet r pk) pkv then
                 cols.foldl (fun r2 c => setAssoc r2 c.name (instGet i c.name)) r else r) } ∧
      (∀ t2, t2 ≠ tn → eF.storage.lookup t2 = e.storage.lookup t2) ∧
      eF.failSet = [] ∧
      eF.trace = e.trace ++ cols.map (fun c => Op.update tn c.name) := by
  intro cols
  induction cols with
  | nil =>
    intro e rows acc results eF hns ht hc hnp hex hout
    rw [List.foldl_nil] at hout
    cases hout
    refine ⟨rfl, ?_, fun t2 _ => rfl, hns, by simp⟩
    simpa using ht
  | cons c cs ih =>
    intro e rows acc results eF hns ht hc hnp hex hout
    rw [List.foldl_cons] at hout
    dsimp only at hout
    have hfc : physCols.any (fun cc => cc.name == c.name) = true :=
      hc c (List.mem_cons_self c cs)
    have hnpc : c.name ≠ pk := hnp c (List.mem_cons_self c cs)
    have hdb := dbSetValue_eval tn c.name (instGet i c.name) pk pkv e
      ⟨physCols, rows⟩ hns ht hfc hpkc
    rw [hdb] at hout
    dsimp only at hout
    have hstab : ∀ r, sqlEq (rowGet r pk) pkv = true →
        sqlEq (rowGet (setAssoc r c.name (instGet i c.name)) pk) pkv = true := by
      intro r hr
      rw [rowGet_setAssoc_ne r c.name (instGet i c.name) pk (Ne.symm hnpc)]
      exact hr
    have ht1 : (({ e with
        storage := mapTable e.storage tn
          (fun pt0 => { pt0 with
            rows := rows.map (fun r => if sqlEq (rowGet r pk) pkv then
              setAssoc r c.name (instGet i c.name) else r) }),
        calls := e.calls + 1,
        trace := e.trace ++ [Op.update tn c.name] } : Engine)).storage.lookup tn =
        some { cols := physCols,
               rows := rows.map (fun r => if sqlEq (rowGet r pk) pkv then
                 setAssoc r c.name (instGet i c.name) else r) } := by
      simpa using lookup_mapTable_self e.storage tn _ ⟨physCols, rows⟩ ht
    have hex1 := any_map_ite (fun r => sqlEq (rowGet r pk) pkv)
      (fun r => setAssoc r c.name (instGet i c.name)) hstab rows hex
    have hih := ih _ _ _ _ _ (by exact hns) ht1
      (fun cc hcm => hc cc (List.mem_cons_of_mem _ hcm))
      (fun cc hcm => hnp cc (List.mem_cons_of_mem _ hcm))
      hex1 hout
    obtain ⟨hall, hlk, hne2, hfs, htr⟩ := hih
    refine ⟨?_, ?_, ?_, hfs, ?_⟩
    · rw [hall]
      have hpos := any_filter_length_pos (fun r => sqlEq (rowGet r pk) pkv) rows hex
      simp [List.all_append, hpos]
    · rw [hlk]
      rw [map_ite_comp (fun r => sqlEq (rowGet r pk) pkv)
        (fun r => setAssoc r c.name (instGet i c.name))
        (fun r => cs.foldl (fun r2 cc => setAssoc r2 cc.name (instGet i cc.name)) r)
        hstab rows]
      simp only [List.foldl_cons]
    · intro t2 hne
      rw [hne2 t2 hne]
      simpa using lookup_mapTable_ne e.storage tn t2 _ hne
    · rw [htr]
      simp

/-- C2: `save()` refines the spec's description. With a declared primary
key `pk` (and well-formed names: no non-key column named like the key),
no engine failures, and the physical layout matching the schema:
`save()` returns success (code 200, status true); the stored rows become
exactly `specSaveRows` — insert of all declared columns in declared
order when no row with the instance's key value exists, otherwise an
update of exactly the non-key columns whose current value differs from
the snapshot, applied to every matching row (the key itself is never
written); other tables are untouched; the snapshot of every non-key
column is refreshed to the current value while the current values are
unchanged; and a save with a matching row and no differing columns
performs no engine write at all (storage and statement trace are
unchanged). -/
theorem save_matches_spec (schema : List TableColumn) (tn : String) (i : Instance)
    (e : Engine) (pk : String) (pt : PhysTable)
    (hpk : primaryKeyColumn schema = some pk)
    (hnp : ∀ c ∈ schema, c.pkey = false → c.name ≠ pk)
    (hns : e.failSet = [])
    (ht : e.storage.lookup tn = some pt)
    (hcols : pt.cols.map (fun c => c.name) = schema.map (fun c => c.name)) :
    ∃ r i2 e2, modelSave schema tn i e = .ok (r, i2, e2) ∧
      r.code = 200 ∧ r.status = some true ∧
      e2.storage.lookup tn = some { cols := pt.cols, rows := specSaveRows schema pk i pt.rows } ∧
      (∀ t2, t2 ≠ tn → e2.storage.lookup t2 = e.storage.lookup t2) ∧
      (∀ c ∈ schema, c.pkey = false → origGet i2 c.name = instGet i c.name) ∧
      (∀ c ∈ schema, instGet i2 c.name = instGet i c.name) ∧
      (pt.rows.any (fun r => sqlEq (rowGet r pk) (instGet i pk)) = true →
        (schema.filter (fun c => !c.pkey)).filter
          (fun c => instGet i c.name != origGet i c.name) = [] →
        e2.storage = e.storage ∧ e2.trace = e.trace) := by
  have hpt_pk : pt.cols.any (fun c => c.name == pk) = true := by
    have hc0 : ∃ c0, schema.find? (fun c => c.pkey) = some c0 ∧ c0.name = pk := by
      unfold primaryKeyColumn at hpk
      rcases Option.map_eq_some'.mp hpk with ⟨c0, hf, hn⟩
      exact ⟨c0, hf, hn⟩
    rcases hc0 with ⟨c0, hf0, hn0⟩
    have hmem : pk ∈ schema.map (fun c => c.name) :=
      List.mem_map.mpr ⟨c0, List.mem_of_find?_eq_some hf0, hn0⟩
    rw [← hcols] at hmem
    rcases List.mem_map.mp hmem with ⟨cc, hccm, hccn⟩
    exact List.any_eq_true.mpr ⟨cc, hccm, beq_iff_eq.mpr hccn⟩
  have hsnap : ∀ c ∈ schema, c.pkey = false →
      origGet (refreshOrig i ((schema.filter (fun c => !c.pkey)).filter
        (fun c => instGet i c.name != origGet i c.name))) c.name = instGet i c.name := by
    intro c hcm hpf
    show rowGet (List.foldl _ i.orig _) c.name = instGet i c.name
    rw [rowGet_refreshFold i]
    by_cases hany : (((schema.filter (fun c => !c.pkey)).filter
        (fun c => instGet i c.name != origGet i c.name)).any
        (fun cc => cc.name == c.name)) = true
    · rw [if_pos hany]
    · have heq : instGet i c.name = origGet i c.name := by
        by_contra hneq
        have hmem1 : c ∈ schema.filter (fun c => !c.pkey) :=
          List.mem_filter.mpr ⟨hcm, by rw [hpf]; rfl⟩
        have hmem2 : c ∈ (schema.filter (fun c => !c.pkey)).filter
            (fun c => instGet i c.name != origGet i c.name) :=
          List.mem_filter.mpr ⟨hmem1, bne_iff_ne.mpr hneq⟩
        exact hany (List.any_eq_true.mpr ⟨c, hmem2, beq_self_eq_true _⟩)
      rw [if_neg hany]
      exact heq.symm
  unfold modelSave
  rw [hpk]
  dsimp only
  rw [valueExists_eval tn pk (instGet i pk) e pt hns ht hpt_pk]
  dsimp only
  cases hex : pt.rows.any (fun r => sqlEq (rowGet r pk) (instGet i pk)) with
  | false =>
    rw [if_pos (show (some false : Option Bool) ≠ some true from by decide)]
    have hlen : (schema.map (fun c => instGet i c.name)).length = pt.cols.length := by
      rw [List.length_map]
      have hl := congrArg List.length hcols
      rw [List.length_map, List.length_map] at hl
      exact hl.symm
    rw [addValues_eval tn (schema.map (fun c => instGet i c.name))
      { e with calls := e.calls + 1 } pt (by exact hns) (by exact ht) hlen]
    rw [if_pos rfl]
    refine ⟨_, _, _, rfl, rfl, rfl, ?_, ?_, hsnap, fun c hcm => rfl, ?_⟩
    · dsimp only
      rw [lookup_mapTable_self e.storage tn _ pt ht]
      unfold specSaveRows
      dsimp only
      rw [hex]
      rw [if_neg (show ¬(false = true) from by decide)]
      rw [hcols, List.zip_map']
    · intro t2 hne
      dsimp only
      exact lookup_mapTable_ne e.storage tn t2 _ hne
    · intro hex2 _
      exact Bool.noConfusion hex2
  | true =>
    rw [if_neg (show ¬((some true : Option Bool) ≠ some true) from by
      intro hh; exact hh rfl)]
    have hfold := saveUpdateFold tn pk (instGet i pk) i pt.cols hpt_pk
      ((schema.filter (fun c => !c.pkey)).filter
        (fun c => instGet i c.name != origGet i c.name))
      { e with calls := e.calls + 1 } pt.rows [] _ _
      (by exact hns) (by exact ht)
      (by
        intro c hcm
        have hcs : c ∈ schema := (List.mem_filter.mp (List.mem_filter.mp hcm).1).1
        have hmm : c.name ∈ schema.map (fun c => c.name) := List.mem_map.mpr ⟨c, hcs, rfl⟩
        rw [← hcols] at hmm
        rcases List.mem_map.mp hmm with ⟨cc, hccm, hccn⟩
        exact List.any_eq_true.mpr ⟨cc, hccm, beq_iff_eq.mpr hccn⟩)
      (by
        intro c hcm
        have h1 := List.mem_filter.mp hcm
        have h2 := List.mem_filter.mp h1.1
        exact hnp c h2.1 (by simpa using h2.2))
      (by exact hex) rfl
    obtain ⟨hall, hlk, hne2, hfs, htr⟩ := hfold
    have hallT : ((((schema.filter (fun c => !c.pkey)).filter
        (fun c => instGet i c.name != origGet i c.name)).foldl
        (fun acc c =>
          let (r, e3) := dbSetValue tn c.name (instGet i c.name) pk (instGet i pk) acc.2
          (acc.1 ++ [r], e3)) ([], { e with calls := e.calls + 1 })).1).all
        (fun r => r.status == some true) = true := by
      rw [hall]
      rfl
    rw [hallT]
    rw [if_pos rfl, if_pos rfl, if_pos rfl]
    refine ⟨_, _, _, rfl, rfl, rfl, ?_, ?_, hsnap, fun c hcm => rfl, ?_⟩
    · rw [hlk]
      unfold specSaveRows
      dsimp only
      rw [hex]
      rw [if_pos rfl]
    · intro t2 hne
      exact hne2 t2 hne
    · intro _ hupd
      rw [hupd]
      exact ⟨rfl, rfl⟩

/-- Witness for `save_matches_spec`: the update path on a concrete
table, with one differing non-key column. -/
theorem save_matches_spec_witness :
    ∃ r i2 e2,
      modelSave
        [{ name := "id", type := SQLType.text, pkey := true },
         { name := "u", type := SQLType.text }] "t2"
        { cur := [("id", Value.vText "a"), ("u", Value.vText "y")],
          orig := [("id", Value.vText "a"), ("u", Value.vText "x")] }
        { storage := [("t2", { cols := [⟨"id", SQLType.text⟩, ⟨"u", SQLType.text⟩],
                               rows := [[("id", Value.vText "a"), ("u", Value.vText "x")]] })],
          failSet := [], calls := 0, trace := [] } = .ok (r, i2, e2) ∧
      r.code = 200 ∧ r.status = some true ∧
      e2.storage.lookup "t2" =
        some { cols := [⟨"id", SQLType.text⟩, ⟨"u", SQLType.text⟩],
               rows := specSaveRows
                 [{ name := "id", type := SQLType.text, pkey := true },
                  { name := "u", type := SQLType.text }] "id"
                 { cur := [("id", Value.vText "a"), ("u", Value.vText "y")],
                   orig := [("id", Value.vText "a"), ("u", Value.vText "x")] }
                 [[("id", Value.vText "a"), ("u", Value.vText "x")]] } ∧
      (∀ t2, t2 ≠ "t2" →
        e2.storage.lookup t2 =
          ({ storage := [("t2", { cols := [⟨"id", SQLType.text⟩, ⟨"u", SQLType.text⟩],
                                  rows := [[("id", Value.vText "a"), ("u", Value.vText "x")]] })],
             failSet := [], calls := 0, trace := [] } : Engine).storage.lookup t2) ∧
      (∀ c ∈ [({ name := "id", type := SQLType.text, pkey := true } : TableColumn),
              { name := "u", type := SQLType.text }], c.pkey = false →
        origGet i2 c.name =
          instGet { cur := [("id", Value.vText "a"), ("u", Value.vText "y")],
                    orig := [("id", Value.vText "a"), ("u", Value.vText "x")] } c.name) ∧
      (∀ c ∈ [({ name := "id", type := SQLType.text, pkey := true } : TableColumn),
              { name := "u", type := SQLType.text }],
        instGet i2 c.name =
          instGet { cur := [("id", Value.vText "a"), ("u", Value.vText "y")],
                    orig := [("id", Value.vText "a"), ("u", Value.vText "x")] } c.name) ∧
      (([[("id", Value.vText "a"), ("u", Value.vText "x")]] : List Row).any
          (fun r => sqlEq (rowGet r "id")
            (instGet { cur := [("id", Value.vText "a"), ("u", Value.vText "y")],
                       orig := [("id", Value.vText "a"), ("u", Value.vText "x")] } "id")) = true →
        ([({ name := "id", type := SQLType.text, pkey := true } : TableColumn),
          { name := "u", type := SQLType.text }].filter (fun c => !c.pkey)).filter
          (fun c => instGet { cur := [("id", Value.vText "a"), ("u", Value.vText "y")],
                              orig := [("id", Value.vText "a"), ("u", Value.vText "x")] } c.name !=
                    origGet { cur := [("id", Value.vText "a"), ("u", Value.vText "y")],
                              orig := [("id", Value.vText "a"), ("u", Value.vText "x")] } c.name) = [] →
        e2.storage =
          ({ storage := [("t2", { cols := [⟨"id", SQLType.text⟩, ⟨"u", SQLType.text⟩],
                                  rows := [[("id", Value.vText "a"), ("u", Value.vText "x")]] })],
             failSet := [], calls := 0, trace := [] } : Engine).storage ∧
        e2.trace =
          ({ storage := [("t2", { cols := [⟨"id", SQLType.text⟩, ⟨"u", SQLType.text⟩],
                                  rows := [[("id", Value.vText "a"), ("u", Value.vText "x")]] })],
             failSet := [], calls := 0, trace := [] } : Engine).trace) :=
  save_matches_spec
    [{ name := "id", type := SQLType.text, pkey := true },
     { name := "u", type := SQLType.text }] "t2"
    { cur := [("id", Value.vText "a"), ("u", Value.vText "y")],
      orig := [("id", Value.vText "a"), ("u", Value.vText "x")] }
    { storage := [("t2", { cols := [⟨"id", SQLType.text⟩, ⟨"u", SQLType.text⟩],
                           rows := [[("id", Value.vText "a"), ("u", Value.vText "x")]] })],
      failSet := [], calls := 0, trace := [] }
    "id"
    { cols := [⟨"id", SQLType.text⟩, ⟨"u", SQLType.text⟩],
      rows := [[("id", Value.vText "a"), ("u", Value.vText "x")]] }
    rfl (by decide) rfl rfl rfl

/-! ## Claim C8 -/

theorem contains_map_name (cols : List PhysColumn) (nm : String) :
    (cols.map (fun c => c.name)).contains nm = cols.any (fun c => c.name == nm) := by
  induction cols with
  | nil => rfl
  | cons c cs ih =>
    simp only [List.map_cons, List.contains_cons, List.any_cons, ih]
    by_cases h : c.name = nm
    · simp [h]
    · simp [beq_false_of_ne h, beq_false_of_ne (Ne.symm h)]

theorem filter_false_of_all {a : Type} (p : a → Bool) :
    ∀ (l : List a), (∀ x ∈ l, p x = false) → l.filter p = [] := by
  intro l
  induction l with
  | nil => intro _; rfl
  | cons x xs ih =>
    intro h
    rw [List.filter_cons, h x (List.mem_cons_self x xs)]
    exact ih (fun y hy => h y (List.mem_cons_of_mem x hy))

theorem tableExists_eval (t : String) (e : Engine) (hns : e.failSet = []) :
    tableExists t e =
      ({ code := 200, status := some ((e.storage.lookup t).isSome) },
       { e with calls := e.calls + 1 }) := by
  unfold tableExists
  rw [tick_no_fail e hns]
  rfl

theorem fieldExists_eval (t f : String) (e : Engine) (pt : PhysTable)
    (hns : e.failSet = []) (ht : e.storage.lookup t = some pt) :
    fieldExists t f e =
      ({ code := 200, status := some (pt.cols.any (fun c => c.name == f)) },
       { e with calls := e.calls + 1 }) := by
  unfold fieldExists
  rw [tick_no_fail e hns]
  dsimp only
  rw [show ({ e with calls := e.calls + 1 } : Engine).storage.lookup t =
      some pt from ht]
  rfl

theorem getTables_eval (e : Engine) (hns : e.failSet = []) :
    getTables e =
      ({ code := 200, status := true, rows := e.storage.map (fun p => p.1) },
       { e with calls := e.calls + 1 }) := by
  unfold getTables
  rw [tick_no_fail e hns]
  rfl

theorem renameField_conformant (t oldF newF : String) (e : Engine) (pt : PhysTable)
    (hns : e.failSet = []) (ht : e.storage.lookup t = some pt)
    (hnew : pt.cols.any (fun c => c.name == newF) = true) :
    (renameField t oldF newF e).1.code ≠ 500 ∧
    (renameField t oldF newF e).2.storage = e.storage ∧
    (renameField t oldF newF e).2.trace = e.trace ∧
    (renameField t oldF newF e).2.failSet = [] := by
  unfold renameField
  rw [fieldExists_eval t oldF e pt hns ht]
  dsimp only
  cases hold : pt.cols.any (fun c => c.name == oldF) with
  | false =>
    rw [if_pos (show (some false : Option Bool) ≠ some true from by decide)]
    refine ⟨?_, rfl, rfl, hns⟩
    show (if (200 : Int) = 200 then (404 : Int) else 500) ≠ 500
    decide
  | true =>
    rw [if_neg (show ¬((some true : Option Bool) ≠ some true) from by
      intro hh; exact hh rfl)]
    rw [fieldExists_eval t newF { e with calls := e.calls + 1 } pt (by exact hns) (by exact ht)]
    dsimp only
    rw [hnew]
    rw [if_pos (Or.inr rfl)]
    refine ⟨?_, rfl, rfl, hns⟩
    show (if (200 : Int) = 200 then (409 : Int) else 500) ≠ 500
    decide

theorem renameFold_conformant (t : String) (pt : PhysTable) :
    ∀ (fields : List TableColumn) (acc : Option ApiResponse) (e : Engine),
      e.failSet = [] →
      e.storage.lookup t = some pt →
      (∀ f ∈ fields, pt.cols.any (fun c => c.name == f.name) = true) →
      ∀ res eF,
        (fields.foldl (fun (acc : Option ApiResponse × Engine) f =>
          match f.old with
          | none => acc
          | some o =>
            let (r, e2) := renameField t o f.name acc.2
            (if r.code = 500 ∧ acc.1 = none then some r else acc.1, e2)) (acc, e)) = (res, eF) →
        res = acc ∧ eF.storage = e.storage ∧ eF.trace = e.trace ∧ eF.failSet = [] := by
  intro fields
  induction fields with
  | nil =>
    intro acc e hns ht hf res eF hout
    rw [List.foldl_nil] at hout
    cases hout
    exact ⟨rfl, rfl, rfl, hns⟩
  | cons f fs ih =>
    intro acc e hns ht hf res eF hout
    rw [List.foldl_cons] at hout
    cases ho : f.old with
    | none =>
      rw [ho] at hout
      dsimp only at hout
      exact ih acc e hns ht (fun g hg => hf g (List.mem_cons_of_mem f hg)) res eF hout
    | some o =>
      rw [ho] at hout
      dsimp only at hout
      have hrf := renameField_conformant t o f.name e pt hns ht
        (hf f (List.mem_cons_self f fs))
      rw [if_neg (fun hand => hrf.1 hand.1)] at hout
      have hih := ih acc (renameField t o f.name e).2 hrf.2.2.2
        (by rw [hrf.2.1]; exact ht)
        (fun g hg => hf g (List.mem_cons_of_mem f hg)) res eF hout
      exact ⟨hih.1, hih.2.1.trans hrf.2.1, hih.2.2.1.trans hrf.2.2.1, hih.2.2.2⟩

theorem addFields_conformant (t : String) (fields : List TableColumn) (du : Bool)
    (e : Engine) (pt : PhysTable)
    (hns : e.failSet = []) (ht : e.storage.lookup t = some pt)
    (hall : fields.all (fun f => (pt.cols.map (fun c => c.name)).contains f.name) = true)
    (hdu : du = true → (pt.cols.map (fun c => c.name)).all
      (fun n => (fields.map (fun f => f.name)).contains n) = true) :
    (addFields t fields du e).1 = { code := 200, status := some true } ∧
    (addFields t fields du e).2.storage = e.storage ∧
    (addFields t fields du e).2.trace = e.trace ∧
    (addFields t fields du e).2.failSet = [] := by
  unfold addFields
  rcases hfold : (fields.foldl (fun (acc : Option ApiResponse × Engine) f =>
      match f.old with
      | none => acc
      | some o =>
        let (r, e2) := renameField t o f.name acc.2
        (if r.code = 500 ∧ acc.1 = none then some r else acc.1, e2)) (none, e))
    with ⟨res0, eF0⟩
  obtain ⟨hres, hsto, htr, hfs⟩ :=
    renameFold_conformant t pt fields none e hns ht
      (fun f hfm => by
        have hc := List.all_eq_true.mp hall f hfm
        rw [contains_map_name] at hc
        exact hc) res0 eF0 hfold
  rw [hfold]
  subst hres
  dsimp only
  rw [tick_no_fail eF0 hfs]
  dsimp only
  have hlk : eF0.storage.lookup t = some pt := by
    rw [hsto]
    exact ht
  rw [show ({ eF0 with calls := eF0.calls + 1 } : Engine).storage.lookup t =
      some pt from hlk]
  simp only [Option.map_some', Option.getD_some]
  have hmiss : fields.filter
      (fun f => !(pt.cols.map (fun c => c.name)).contains f.name) = [] :=
    filter_false_of_all _ fields (fun f hfm => by
      rw [List.all_eq_true.mp hall f hfm]
      rfl)
  rw [hmiss]
  rw [List.foldl_nil]
  cases du with
  | false =>
    dsimp only
    exact ⟨rfl, hsto, htr, hfs⟩
  | true =>
    have hun : (pt.cols.map (fun c => c.name)).filter
        (fun n => !(fields.map (fun f => f.name)).contains n) = [] :=
      filter_false_of_all _ _ (fun n hnm => by
        rw [List.all_eq_true.mp (hdu rfl) n hnm]
        rfl)
    rw [hun]
    rw [List.foldl_nil]
    dsimp only
    exact ⟨rfl, hsto, htr, hfs⟩

theorem createTable_conformant (t : String) (fields : List TableColumn) (du : Bool)
    (e : Engine) (pt : PhysTable)
    (hns : e.failSet = []) (ht : e.storage.lookup t = some pt)
    (hall : fields.all (fun f => (pt.cols.map (fun c => c.name)).contains f.name) = true)
    (hdu : du = true → (pt.cols.map (fun c => c.name)).all
      (fun n => (fields.map (fun f => f.name)).contains n) = true) :
    (createTable t fields du e).1 = { code := 200, status := some true } ∧
    (createTable t fields du e).2.storage = e.storage ∧
    (createTable t fields du e).2.trace = e.trace ∧
    (createTable t fields du e).2.failSet = [] := by
  unfold createTable
  rw [tableExists_eval t e hns]
  dsimp only
  rw [ht]
  rw [if_neg (show ¬((200 : Int) ≠ 200) from fun hh => hh rfl)]
  rw [if_pos (show some (some pt).isSome = some true from rfl)]
  have h := addFields_conformant t fields du { e with calls := e.calls + 1 } pt
    (by exact hns) (by exact ht) hall hdu
  exact ⟨h.1, h.2.1, h.2.2.1, h.2.2.2⟩

theorem reorderFields_conformant (t : String) (fields : List TableColumn) (du : Bool)
    (tempName : String) (e : Engine) (pt : PhysTable)
    (hns : e.failSet = []) (ht : e.storage.lookup t = some pt)
    (hmatch : reorderMatch fields pt.cols = true) :
    reorderFields t fields du tempName e =
      ({ code := 200, status := some false }, { e with calls := e.calls + 1 }) := by
  unfold reorderFields
  rw [tick_no_fail e hns]
  dsimp only
  rw [show ({ e with calls := e.calls + 1 } : Engine).storage.lookup t =
      some pt from ht]
  simp only [Option.map_some', Option.getD_some]
  rw [hmatch]
  rw [if_pos rfl]
  rfl

theorem openFold_conformant (du ro : Bool) (tbls : List (String × List TableColumn)) :
    ∀ (e : Engine),
      e.failSet = [] →
      (∀ p ∈ tbls, ∃ pt, e.storage.lookup p.1 = some pt ∧
        tableConformant p.2 pt du ro = true) →
      (tbls.foldl (fun ec p =>
        let (_, ec1) := createTable p.1 p.2 du ec
        if ro then (reorderFields p.1 p.2 du ("temp_" ++ p.1) ec1).2 else ec1) e).storage =
        e.storage ∧
      (tbls.foldl (fun ec p =>
        let (_, ec1) := createTable p.1 p.2 du ec
        if ro then (reorderFields p.1 p.2 du ("temp_" ++ p.1) ec1).2 else ec1) e).trace =
        e.trace ∧
      (tbls.foldl (fun ec p =>
        let (_, ec1) := createTable p.1 p.2 du ec
        if ro then (reorderFields p.1 p.2 du ("temp_" ++ p.1) ec1).2 else ec1) e).failSet =
        [] := by
  induction tbls with
  | nil =>
    intro e hns _
    exact ⟨rfl, rfl, hns⟩
  | cons p ps ih =>
    intro e hns hconf
    rw [List.foldl_cons]
    dsimp only
    obtain ⟨pt, hlk, hct⟩ := hconf p (List.mem_cons_self p ps)
    rw [tableConformant, Bool.and_eq_true, Bool.and_eq_true] at hct
    obtain ⟨⟨hA, hB⟩, hC⟩ := hct
    have hdu : du = true → (pt.cols.map (fun c => c.name)).all
        (fun n => (p.2.map (fun f => f.name)).contains n) = true := by
      intro hd
      rw [hd] at hB
      simpa using hB
    obtain ⟨hs1, ht1, hf1⟩ :=
      (createTable_conformant p.1 p.2 du e pt hns hlk hA hdu).2
    cases ro with
    | false =>
      have hih := ih (createTable p.1 p.2 du e).2 hf1
        (fun q hq => by
          obtain ⟨ptq, hlq, hcq⟩ := hconf q (List.mem_cons_of_mem p hq)
          exact ⟨ptq, by rw [hs1]; exact hlq, hcq⟩)
      rw [if_neg Bool.false_ne_true]
      exact ⟨hih.1.trans hs1, hih.2.1.trans ht1, hih.2.2⟩
    | true =>
      have hmatch : reorderMatch p.2 pt.cols = true := by simpa using hC
      have hro := reorderFields_conformant p.1 p.2 du ("temp_" ++ p.1)
        (createTable p.1 p.2 du e).2 pt hf1 (by rw [hs1]; exact hlk) hmatch
      rw [if_pos rfl, hro]
      have hih := ih { (createTable p.1 p.2 du e).2 with
          calls := (createTable p.1 p.2 du e).2.calls + 1 } (by exact hf1)
        (fun q hq => by
          obtain ⟨ptq, hlq, hcq⟩ := hconf q (List.mem_cons_of_mem p hq)
          refine ⟨ptq, ?_, hcq⟩
          show (createTable p.1 p.2 du e).2.storage.lookup q.1 = some ptq
          rw [hs1]
          exact hlq)
      refine ⟨?_, ?_, hih.2.2⟩
      · exact hih.1.trans (show ({ (createTable p.1 p.2 du e).2 with
          calls := (createTable p.1 p.2 du e).2.calls + 1 } : Engine).storage =
            e.storage from hs1)
      · exact hih.2.1.trans (show ({ (createTable p.1 p.2 du e).2 with
          calls := (createTable p.1 p.2 du e).2.calls + 1 } : Engine).trace =
            e.trace from ht1)

theorem unusedFold_noop (tables : List (String × List TableColumn)) (du : Bool) :
    ∀ (rows : List String) (e : Engine),
      (∀ t ∈ rows, (du && (tables.lookup t).isNone) = false) →
      (rows.foldl (fun ec t =>
        if du && (tables.lookup t).isNone then (deleteTable t ec).2 else ec) e) = e := by
  intro rows
  induction rows with
  | nil => intro e _; rfl
  | cons t ts ih =>
    intro e h
    rw [List.foldl_cons]
    rw [if_neg (show ¬((du && (tables.lookup t).isNone) = true) from by
      rw [h t (List.mem_cons_self t ts)]
      exact Bool.false_ne_true)]
    exact ih e (fun t2 ht2 => h t2 (List.mem_cons_of_mem t ht2))

/-- C8: migration is idempotent. Against storage already conformant to
the declared schema (every declared column physically present; with
`delete_unused`, no undeclared column or table; with `reorder`, the
physical prefix in declared order) and with no engine failures, a
second `open()` leaves the storage untouched and executes zero mutating
statements — no column rename, add or drop, no table rebuild, no table
drop (the executed-statement trace is unchanged) — and still reports
success. -/
theorem open_idempotent (tables : List (String × List TableColumn))
    (du ro be ve : Bool) (e : Engine)
    (hconf : storageConformant tables du ro e.storage = true)
    (hns : e.failSet = []) :
    (openDb tables du ro be ve false e).engine.storage = e.storage ∧
    (openDb tables du ro be ve false e).engine.trace = e.trace ∧
    (openDb tables du ro be ve false e).resp = { code := 200, status := some true } := by
  unfold storageConformant at hconf
  rw [Bool.and_eq_true] at hconf
  obtain ⟨h1, h2⟩ := hconf
  have hper : ∀ p ∈ tables, ∃ pt, e.storage.lookup p.1 = some pt ∧
      tableConformant p.2 pt du ro = true := by
    intro p hp
    have hx := List.all_eq_true.mp h1 p hp
    cases hl : e.storage.lookup p.1 with
    | none => rw [hl] at hx; cases hx
    | some pt => rw [hl] at hx; exact ⟨pt, rfl, hx⟩
  unfold openDb
  rw [if_neg Bool.false_ne_true]
  dsimp only
  obtain ⟨hs1, ht1, hf1⟩ := openFold_conformant du ro tables e hns hper
  rw [getTables_eval _ hf1]
  dsimp only
  have hcond : ∀ t ∈ (tables.foldl (fun ec p =>
      let (_, ec1) := createTable p.1 p.2 du ec
      if ro then (reorderFields p.1 p.2 du ("temp_" ++ p.1) ec1).2 else ec1)
        e).storage.map (fun p => p.1),
      (du && (tables.lookup t).isNone) = false := by
    rw [hs1]
    intro t htm
    rcases List.mem_map.mp htm with ⟨q, hq, hqe⟩
    cases du with
    | false => rfl
    | true =>
      have h2x : e.storage.all (fun q => (tables.lookup q.1).isSome) = true := by
        simpa using h2
      have hq2 := List.all_eq_true.mp h2x q hq
      rw [← hqe]
      cases hq3 : tables.lookup q.1 with
      | none => rw [hq3] at hq2; cases hq2
      | some _ => rfl
  rw [unusedFold_noop tables du _ _ hcond]
  exact ⟨hs1, ht1, rfl⟩

/-- Witness for `open_idempotent` on a concrete conformant store with
both `delete_unused` and `reorder` enabled and a declared rename. -/
theorem open_idempotent_witness :
    (openDb [("t", [{ old := some "oid", name := "id", type := SQLType.text, pkey := true },
                    { name := "u", type := SQLType.text }])] true true false false false
      { storage := [("t", { cols := [⟨"id", SQLType.text⟩, ⟨"u", SQLType.text⟩],
                            rows := [[("id", Value.vText "a"), ("u", Value.vText "x")]] })],
        failSet := [], calls := 0, trace := [] }).engine.storage =
      ({ storage := [("t", { cols := [⟨"id", SQLType.text⟩, ⟨"u", SQLType.text⟩],
                             rows := [[("id", Value.vText "a"), ("u", Value.vText "x")]] })],
         failSet := [], calls := 0, trace := [] } : Engine).storage ∧
    (openDb [("t", [{ old := some "oid", name := "id", type := SQLType.text, pkey := true },
                    { name := "u", type := SQLType.text }])] true true false false false
      { storage := [("t", { cols := [⟨"id", SQLType.text⟩, ⟨"u", SQLType.text⟩],
                            rows := [[("id", Value.vText "a"), ("u", Value.vText "x")]] })],
        failSet := [], calls := 0, trace := [] }).engine.trace =
      ({ storage := [("t", { cols := [⟨"id", SQLType.text⟩, ⟨"u", SQLType.text⟩],
                             rows := [[("id", Value.vText "a"), ("u", Value.vText "x")]] })],
         failSet := [], calls := 0, trace := [] } : Engine).trace ∧
    (openDb [("t", [{ old := some "oid", name := "id", type := SQLType.text, pkey := true },
                    { name := "u", type := SQLType.text }])] true true false false false
      { storage := [("t", { cols := [⟨"id", SQLType.text⟩, ⟨"u", SQLType.text⟩],
                            rows := [[("id", Value.vText "a"), ("u", Value.vText "x")]] })],
        failSet := [], calls := 0, trace := [] }).resp =
      { code := 200, status := some true } :=
  open_idempotent
    [("t", [{ old := some "oid", name := "id", type := SQLType.text, pkey := true },
            { name := "u", type := SQLType.text }])] true true false false
    { storage := [("t", { cols := [⟨"id", SQLType.text⟩, ⟨"u", SQLType.text⟩],
                          rows := [[("id", Value.vText "a"), ("u", Value.vText "x")]] })],
      failSet := [], calls := 0, trace := [] }
    (by decide) rfl
